import Mathlib

/-!
Verification of the trace parser (`trace_viewer/parser.py`) and sub-agent
detector (`trace_viewer/subagent_detector.py`).

Shallow embedding conventions:
* Python strings are `Str := List Char`.
* JSON / Python values are `JVal` (Python `None` is `JVal.null`; numbers are
  exact rationals, so float timestamps such as `100.25` are represented
  exactly).
* Operations that can raise in Python (attribute errors on non-dicts,
  `len` of a number, subtraction of non-numbers, ...) live in `Except Str`;
  an `Except.error` models an uncaught Python exception.
* `json.loads` is modelled by `jsonParse`, a fuel-based recursive-descent
  parser for the JSON accepted by the stdlib decoder (`NaN`/`Infinity`
  literals and surrogate-pair recombination are not modelled; no claim
  depends on them).
-/

abbrev Str := List Char

def strL (s : String) : Str := s.toList

/-- Python `str` whitespace (`str.strip`). -/
def pyWs (c : Char) : Bool :=
  c = ' ' || c = '\t' || c = '\n' || c = '\r' || c = '\x0b' || c = '\x0c'

/-- Python `line.strip()`. -/
def pyStrip (s : Str) : Str :=
  ((s.dropWhile pyWs).reverse.dropWhile pyWs).reverse

/-- Python `s.split(c)` for a single-character separator. -/
def splitOnChar (c : Char) : Str → List Str
  | [] => [[]]
  | x :: xs =>
    match splitOnChar c xs with
    | [] => [[]]
    | y :: ys => if x = c then [] :: y :: ys else (x :: y) :: ys

/-- Python `s.split(sep)` for a non-empty separator `c0 :: ctail`. -/
def splitOnSub (c0 : Char) (ctail : Str) : Str → List Str
  | [] => [[]]
  | x :: xs =>
    if (c0 :: ctail).isPrefixOf (x :: xs) then
      match splitOnSub c0 ctail ((x :: xs).drop (ctail.length + 1)) with
      | [] => [[]]
      | ys => [] :: ys
    else
      match splitOnSub c0 ctail xs with
      | [] => [[]]
      | y :: ys => (x :: y) :: ys
termination_by s => s.length
decreasing_by
  all_goals simp [List.length_drop]
  all_goals omega

/-- JSON / Python values. -/
inductive JVal where
  | null : JVal
  | bool : Bool → JVal
  | num : ℚ → JVal
  | str : Str → JVal
  | arr : List JVal → JVal
  | obj : List (Str × JVal) → JVal

/-- Numeric view (Python treats `bool` as an `int`). -/
def numView : JVal → Option ℚ
  | .num q => some q
  | .bool b => some (if b then 1 else 0)
  | _ => none

/-- `x is None`. -/
def isNull : JVal → Bool
  | .null => true
  | _ => false

/-- Python key equality for hashable dict keys (1 == True == 1.0).
Unhashable keys (lists/dicts) never reach a dict in the modelled code. -/
def pyKeyEq (a b : JVal) : Bool :=
  match a, b with
  | .null, .null => true
  | .str s, .str t => s == t
  | a', b' =>
    match numView a', numView b' with
    | some x, some y => x == y
    | _, _ => false

/-- Hashable Python values (lists/dicts are unhashable). -/
def hashableJ : JVal → Bool
  | .arr _ => false
  | .obj _ => false
  | _ => true

/-- Dict insertion: replace in place if the key exists, else append. -/
def insertKey (kvs : List (Str × JVal)) (k : Str) (v : JVal) : List (Str × JVal) :=
  match kvs with
  | [] => [(k, v)]
  | (k', v') :: rest =>
    if k' = k then (k', v) :: rest else (k', v') :: insertKey rest k v

def lookupKeyJ (kvs : List (JVal × α)) (k : JVal) : Option α :=
  match kvs with
  | [] => none
  | (k', v) :: rest => if pyKeyEq k' k then some v else lookupKeyJ rest k

def insertKeyJ (kvs : List (JVal × α)) (k : JVal) (v : α) : List (JVal × α) :=
  match kvs with
  | [] => [(k, v)]
  | (k', v') :: rest =>
    if pyKeyEq k' k then (k', v) :: rest else (k', v') :: insertKeyJ rest k v

def removeKeyJ (kvs : List (JVal × α)) (k : JVal) : List (JVal × α) :=
  match kvs with
  | [] => []
  | (k', v') :: rest =>
    if pyKeyEq k' k then rest else (k', v') :: removeKeyJ rest k

/-- Python substring test `needle in s`. -/
def strHasSub (needle : Str) : Str → Bool
  | [] => needle.isEmpty
  | c :: rest => needle.isPrefixOf (c :: rest) || strHasSub needle rest

/-- Python truthiness. -/
def pyTruthy : JVal → Bool
  | .null => false
  | .bool b => b
  | .num q => !(decide (q = 0))
  | .str s => !s.isEmpty
  | .arr xs => !xs.isEmpty
  | .obj kvs => !kvs.isEmpty

/-- Dict lookup (decidable-equality form, proof-friendly). -/
def lookupStr (k : Str) : List (Str × JVal) → Option JVal
  | [] => none
  | (k', v) :: rest => if k' = k then some v else lookupStr k rest

/-- Python `x.get(k, dflt)` — raises AttributeError unless `x` is a dict. -/
def pyGetD (v : JVal) (k : Str) (dflt : JVal) : Except Str JVal :=
  match v with
  | .obj kvs => .ok ((lookupStr k kvs).getD dflt)
  | _ => .error (strL "AttributeError: object has no attribute get")

/-- Python `x[k]` with a string key. -/
def pyItem (v : JVal) (k : Str) : Except Str JVal :=
  match v with
  | .obj kvs =>
    match lookupStr k kvs with
    | some x => .ok x
    | none => .error (strL "KeyError")
  | _ => .error (strL "TypeError: object is not subscriptable with str")

/-- Python `x[k] = w` with a string key. -/
def pySetItem (v : JVal) (k : Str) (w : JVal) : Except Str JVal :=
  match v with
  | .obj kvs => .ok (.obj (insertKey kvs k w))
  | _ => .error (strL "TypeError: object does not support item assignment")

/-- Python `k in x` for a string `k`. -/
def pyHasKey (k : Str) (v : JVal) : Except Str Bool :=
  match v with
  | .obj kvs => .ok (lookupStr k kvs).isSome
  | .arr xs => .ok (xs.any fun x => match x with | .str t => t == k | _ => false)
  | .str t => .ok (strHasSub k t)
  | _ => .error (strL "TypeError: argument is not iterable")

/-- Python `len(x)`. -/
def pyLen (v : JVal) : Except Str ℕ :=
  match v with
  | .str s => .ok s.length
  | .arr xs => .ok xs.length
  | .obj kvs => .ok kvs.length
  | _ => .error (strL "TypeError: object has no len")

/-- Python `a - b`. -/
def pySub (a b : JVal) : Except Str JVal :=
  match numView a, numView b with
  | some x, some y => .ok (.num (x - y))
  | _, _ => .error (strL "TypeError: unsupported operand type for -")

/-- Coerce to a Lean string or fail like a Python str-method on a non-str. -/
def asStr (v : JVal) : Except Str Str :=
  match v with
  | .str s => .ok s
  | _ => .error (strL "TypeError: expected str")

/-- Python `x == "lit"` (never equal for non-strings). -/
def pyEqStr (v : JVal) (s : Str) : Bool :=
  match v with
  | .str t => t = s
  | _ => false

/-! ### A model of `json.loads` -/

/-- JSON whitespace accepted between tokens by the stdlib decoder. -/
def jsonWs (c : Char) : Bool := c = ' ' || c = '\t' || c = '\n' || c = '\r'

def skipWs (s : Str) : Str := s.dropWhile jsonWs

def isDig (c : Char) : Bool := '0' ≤ c && c ≤ '9'

def digVal (c : Char) : ℕ := c.toNat - '0'.toNat

def digitsVal (ds : Str) : ℕ := ds.foldl (fun a c => a * 10 + digVal c) 0

def hexVal (c : Char) : Option ℕ :=
  if isDig c then some (digVal c)
  else if 'a' ≤ c && c ≤ 'f' then some (10 + (c.toNat - 'a'.toNat))
  else if 'A' ≤ c && c ≤ 'F' then some (10 + (c.toNat - 'A'.toNat))
  else none

def escMap (c : Char) : Option Char :=
  if c = '"' then some '"'
  else if c = '\\' then some '\\'
  else if c = '/' then some '/'
  else if c = 'b' then some '\x08'
  else if c = 'f' then some '\x0c'
  else if c = 'n' then some '\n'
  else if c = 'r' then some '\r'
  else if c = 't' then some '\t'
  else none

/-- Parse the body of a JSON string literal (after the opening quote),
returning the decoded text and the remaining input. -/
def parseStrBody : Str → Except Str (Str × Str)
  | [] => .error (strL "Unterminated string")
  | c :: r =>
    if c = '"' then .ok ([], r)
    else if c = '\\' then
      match r with
      | [] => .error (strL "Unterminated string")
      | c2 :: r2 =>
        if c2 = 'u' then
          match r2 with
          | h1 :: h2 :: h3 :: h4 :: r3 =>
            match hexVal h1, hexVal h2, hexVal h3, hexVal h4 with
            | some a, some b, some c3, some d => do
              let n := ((a * 16 + b) * 16 + c3) * 16 + d
              let (t, r4) ← parseStrBody r3
              .ok (Char.ofNat n :: t, r4)
            | _, _, _, _ => .error (strL "Invalid unicode escape")
          | _ => .error (strL "Invalid unicode escape")
        else
          match escMap c2 with
          | some ec => do
            let (t, r3) ← parseStrBody r2
            .ok (ec :: t, r3)
          | none => .error (strL "Invalid escape")
    else if c.toNat < 32 then .error (strL "Invalid control character")
    else do
      let (t, r2) ← parseStrBody r
      .ok (c :: t, r2)

/-- The fraction part of a JSON number: digits after a dot, only when at
least one digit follows the dot. -/
def fracPart (r1 : Str) : Str × Str :=
  match r1 with
  | c :: r' =>
    if c = '.' && !(r'.takeWhile isDig).isEmpty then
      (r'.takeWhile isDig, r'.dropWhile isDig)
    else ([], r1)
  | [] => ([], r1)

/-- The exponent part of a JSON number: `e`/`E`, optional sign, digits —
only when at least one digit follows. -/
def expPart (r2 : Str) : Str × Bool × Str :=
  match r2 with
  | c :: r' =>
    if c = 'e' || c = 'E' then
      let (sgn, r'') : Bool × Str :=
        match r' with
        | c2 :: r3 =>
          if c2 = '-' then (true, r3)
          else if c2 = '+' then (false, r3)
          else (false, r')
        | [] => (false, r')
      if (r''.takeWhile isDig).isEmpty then ([], false, r2)
      else (r''.takeWhile isDig, sgn, r''.dropWhile isDig)
    else ([], false, r2)
  | [] => ([], false, r2)

/-- Parse a JSON number starting at the current position (first char is a
digit or a minus sign). Mirrors the stdlib grammar: no leading zeros, a
fraction/exponent only counts when digits follow. -/
def parseNumAt (s : Str) : Except Str (JVal × Str) :=
  let (neg, s1) : Bool × Str :=
    match s with
    | c :: r => if c = '-' then (true, r) else (false, s)
    | [] => (false, s)
  match s1 with
  | c :: r =>
    if isDig c then
      let (ids, r1) : Str × Str :=
        if c = '0' then ([c], r) else (c :: r.takeWhile isDig, r.dropWhile isDig)
      let (fds, r2) := fracPart r1
      let (eds, esign, r3) := expPart r2
      let q : ℚ :=
        if fds.isEmpty && eds.isEmpty then
          -- integer literal (fast path; equal to the general formula)
          if neg then -(digitsVal ids : ℚ) else (digitsVal ids : ℚ)
        else
          let base : ℚ := (digitsVal ids : ℚ) + (digitsVal fds : ℚ) / (10 : ℚ) ^ fds.length
          let expo : ℤ := if esign then -(digitsVal eds : ℤ) else (digitsVal eds : ℤ)
          (if neg then -base else base) * (10 : ℚ) ^ expo
      .ok (.num q, r3)
    else .error (strL "Expecting value")
  | [] => .error (strL "Expecting value")

def stripPre (p s : Str) : Option Str :=
  if p.isPrefixOf s then some (s.drop p.length) else none

mutual

def parseVal : ℕ → Str → Except Str (JVal × Str)
  | 0, _ => .error (strL "RecursionError")
  | fuel + 1, s =>
    match skipWs s with
    | [] => .error (strL "Expecting value")
    | c :: r =>
      if c = '\x7b' then parseObjBody fuel (skipWs r) []
      else if c = '[' then parseArrBody fuel (skipWs r) []
      else if c = '"' then do
        let (t, r') ← parseStrBody r
        .ok (.str t, r')
      else if c = 'n' then
        match stripPre (strL "ull") r with
        | some r' => .ok (.null, r')
        | none => .error (strL "Expecting value")
      else if c = 't' then
        match stripPre (strL "rue") r with
        | some r' => .ok (.bool true, r')
        | none => .error (strL "Expecting value")
      else if c = 'f' then
        match stripPre (strL "alse") r with
        | some r' => .ok (.bool false, r')
        | none => .error (strL "Expecting value")
      else if c = '-' || isDig c then parseNumAt (c :: r)
      else .error (strL "Expecting value")

def parseObjBody : ℕ → Str → List (Str × JVal) → Except Str (JVal × Str)
  | 0, _, _ => .error (strL "RecursionError")
  | fuel + 1, s, acc =>
    match s with
    | [] => .error (strL "Expecting property name enclosed in double quotes")
    | c :: r =>
      if c = '\x7d' then
        if acc.isEmpty then .ok (.obj acc, r)
        else .error (strL "Expecting property name enclosed in double quotes")
      else if c = '"' then do
        let (k, r1) ← parseStrBody r
        match skipWs r1 with
        | [] => .error (strL "Expecting colon delimiter")
        | c2 :: r2 =>
          if c2 = ':' then do
            let (v, r3) ← parseVal fuel r2
            let acc' := insertKey acc k v
            match skipWs r3 with
            | [] => .error (strL "Expecting delimiter")
            | c3 :: r4 =>
              if c3 = ',' then parseObjBody fuel (skipWs r4) acc'
              else if c3 = '\x7d' then .ok (.obj acc', r4)
              else .error (strL "Expecting delimiter")
          else .error (strL "Expecting colon delimiter")
      else .error (strL "Expecting property name enclosed in double quotes")

def parseArrBody : ℕ → Str → List JVal → Except Str (JVal × Str)
  | 0, _, _ => .error (strL "RecursionError")
  | fuel + 1, s, acc =>
    match s with
    | ']' :: r =>
      if acc.isEmpty then .ok (.arr acc, r)
      else .error (strL "Expecting value")
    | _ => do
      let (v, r1) ← parseVal fuel s
      match skipWs r1 with
      | ',' :: r2 => parseArrBody fuel (skipWs r2) (acc ++ [v])
      | ']' :: r2 => .ok (.arr (acc ++ [v]), r2)
      | _ => .error (strL "Expecting delimiter")

end

/-- Model of `json.loads`. -/
def jsonParse (s : Str) : Except Str JVal := do
  let (v, r) ← parseVal (2 * s.length + 2) s
  if (skipWs r).isEmpty then .ok v else .error (strL "Extra data")

/-! ### Numeric and timestamp formatting helpers -/

/-- Decimal digits of a natural number (structural fuel so that the kernel
can evaluate it). -/
def natDigitsAux : ℕ → ℕ → Str
  | 0, _ => []
  | fuel + 1, n =>
    if n < 10 then [Char.ofNat ('0'.toNat + n)]
    else natDigitsAux fuel (n / 10) ++ [Char.ofNat ('0'.toNat + n % 10)]

def natDigits (n : ℕ) : Str := natDigitsAux (n + 1) n

/-- Digits left-padded with zeros to width `w`. -/
def padZ (w : ℕ) (n : ℕ) : Str :=
  List.replicate (w - (natDigits n).length) '0' ++ natDigits n

/-- Round half to even, as Python does when formatting. -/
def rhe (q : ℚ) : ℤ :=
  let f : ℤ := q.num.fdiv q.den
  let r : ℚ := q - f
  if r < 1 / 2 then f
  else if 1 / 2 < r then f + 1
  else if f % 2 = 0 then f else f + 1

/-- Python `int(q)`: truncation toward zero. -/
def ratTrunc (q : ℚ) : ℤ := q.num.tdiv q.den

/-- Python `f"{q:.3f}"` on an exactly-represented value. -/
def pyFormat3 (q : ℚ) : Str :=
  let m := rhe (q * 1000)
  let sgn : Str := if m < 0 || (m = 0 && q < 0) then ['-'] else []
  let n := m.natAbs
  sgn ++ natDigits (n / 1000) ++ ['.'] ++ padZ 3 (n % 1000)

/-- Hinnant's civil-from-days: days since the Unix epoch to (year, month, day). -/
def civilFromDays (z0 : ℤ) : ℤ × ℤ × ℤ :=
  let z := z0 + 719468
  let era := Int.fdiv z 146097
  let doe := z - era * 146097
  let yoe := Int.fdiv (doe - Int.fdiv doe 1460 + Int.fdiv doe 36524 - Int.fdiv doe 146096) 365
  let y := yoe + era * 400
  let doy := doe - (365 * yoe + Int.fdiv yoe 4 - Int.fdiv yoe 100)
  let mp := Int.fdiv (5 * doy + 2) 153
  let d := doy - Int.fdiv (153 * mp + 2) 5 + 1
  let m := mp + (if mp < 10 then 3 else -9)
  (y + (if m ≤ 2 then 1 else 0), m, d)

/-- Microseconds since the epoch of a float timestamp (CPython rounds
half-to-even when converting to `datetime`). -/
def fromtsUS (q : ℚ) : ℤ := rhe (q * 1000000)

/-- `datetime.fromtimestamp` accepts timestamps whose civil year is 1..9999. -/
def tsInRangeB (q : ℚ) : Bool :=
  decide (-62135596800000000 ≤ fromtsUS q) && decide (fromtsUS q < 253402300800000000)

/-- `strftime("%H:%M:%S")` of a UTC timestamp. -/
def fmtHMS (q : ℚ) : Str :=
  let us := fromtsUS q
  let sec := Int.fdiv us 1000000
  let days := Int.fdiv sec 86400
  let sod := (sec - days * 86400).toNat
  padZ 2 (sod / 3600) ++ [':'] ++ padZ 2 (sod % 3600 / 60) ++ [':'] ++ padZ 2 (sod % 60)

/-- `strftime("%Y-%m-%d %H:%M:%S.%f")[:-3] + " UTC"` of a UTC timestamp. -/
def fmtFull (q : ℚ) : Str :=
  let us := fromtsUS q
  let sec := Int.fdiv us 1000000
  let micro := (us - sec * 1000000).toNat
  let days := Int.fdiv sec 86400
  let (y, m, d) := civilFromDays days
  padZ 4 y.toNat ++ ['-'] ++ padZ 2 m.toNat ++ ['-'] ++ padZ 2 d.toNat ++ [' '] ++
    fmtHMS q ++ ['.'] ++ (padZ 6 micro).take 3 ++ strL " UTC"

/-! ### `parser.py` helpers -/

/-- `_format_timestamp`: falsy (missing or `0`) timestamps give `None`;
non-numeric truthy values raise; out-of-range numbers raise `ValueError`. -/
def _format_timestamp (v : JVal) : Except Str JVal :=
  if !(pyTruthy v) then .ok .null
  else
    match numView v with
    | some q =>
      if tsInRangeB q then .ok (.str (fmtHMS q))
      else .error (strL "ValueError: timestamp out of range")
    | none => .error (strL "TypeError: an integer is required")

/-- `_format_timestamp_full`. -/
def _format_timestamp_full (v : JVal) : Except Str JVal :=
  if !(pyTruthy v) then .ok .null
  else
    match numView v with
    | some q =>
      if tsInRangeB q then .ok (.str (fmtFull q))
      else .error (strL "ValueError: timestamp out of range")
    | none => .error (strL "TypeError: an integer is required")

/-- `_extract_url_path`. -/
def _extract_url_path (url : JVal) : Except Str JVal := do
  if !(pyTruthy url) then pure (.str [])
  else do
    let b ← pyHasKey (strL "://") url
    if b then do
      let s ← asStr url
      let u2 := (splitOnSub ':' (strL "//") s).getD 1 []
      if strHasSub ['/'] u2 then
        let joined := List.intercalate ['/'] ((splitOnChar '/' u2).drop 1)
        pure (.str ('/' :: (splitOnChar '?' joined).headD []))
      else pure (.str u2)
    else pure url

/-! ### `_parse_sse_events_detailed` -/

/-- State of the SSE reconstruction loop. The Python code keeps a raw
reference to the `content_block_start` event dict; here events live in an
arena (`events`) and `cur`/`refs` store arena indices. -/
structure SSEState where
  events : List JVal
  cur : Option ℕ
  blocks : List (JVal × Str)
  refs : List (JVal × ℕ)

def initSSE : SSEState := ⟨[], none, [], []⟩

/-- `content_block_start` handling (parser.py lines 279-288). -/
def sseHandleStart (st : SSEState) (k : ℕ) (d : JVal) : Except Str SSEState := do
  let bi ← pyGetD d (strL "index") .null
  let cb ← pyGetD d (strL "content_block") (.obj [])
  if isNull bi then pure st
  else do
    let ct ← pyGetD cb (strL "type") .null
    if pyEqStr ct (strL "tool_use") then
      if hashableJ bi then
        pure { st with blocks := insertKeyJ st.blocks bi [],
                       refs := insertKeyJ st.refs bi k }
      else .error (strL "TypeError: unhashable type")
    else pure st

/-- `content_block_delta` handling (parser.py lines 290-302). -/
def sseHandleDelta (st : SSEState) (d : JVal) : Except Str SSEState := do
  let bi ← pyGetD d (strL "index") .null
  let delta ← pyGetD d (strL "delta") (.obj [])
  if isNull bi then pure st
  else if !(hashableJ bi) then .error (strL "TypeError: unhashable type")
  else
    match lookupKeyJ st.blocks bi with
    | none => pure st
    | some acc => do
      let dt ← pyGetD delta (strL "type") .null
      if pyEqStr dt (strL "input_json_delta") then do
        let pj ← pyGetD delta (strL "partial_json") (.str [])
        let s ← asStr pj
        pure { st with blocks := insertKeyJ st.blocks bi (acc ++ s) }
      else pure st

/-- The guarded nested assignment into the original start event
(`start_event["data"]["content_block"][...] = ...`). -/
def sseWriteInput (st : SSEState) (ri : ℕ) (write : JVal → Except Str JVal) :
    Except Str SSEState := do
  let startEv := st.events.getD ri .null
  let b1 ← pyHasKey (strL "data") startEv
  if b1 then do
    let d0 ← pyItem startEv (strL "data")
    let b2 ← pyHasKey (strL "content_block") d0
    if b2 then do
      let cb0 ← pyItem d0 (strL "content_block")
      let cb1 ← write cb0
      let d1 ← pySetItem d0 (strL "content_block") cb1
      let ev1 ← pySetItem startEv (strL "data") d1
      pure { st with events := st.events.set ri ev1 }
    else pure st
  else pure st

/-- `content_block_stop` handling (parser.py lines 304-332). -/
def sseHandleStop (st : SSEState) (d : JVal) : Except Str SSEState := do
  let bi ← pyGetD d (strL "index") .null
  if isNull bi then pure st
  else if !(hashableJ bi) then .error (strL "TypeError: unhashable type")
  else
    match lookupKeyJ st.blocks bi with
    | none => pure st
    | some acc => do
      let st1 ←
        match acc.isEmpty, lookupKeyJ st.refs bi with
        | false, some ri =>
          match jsonParse acc with
          | .ok parsed => sseWriteInput st ri (fun cb => pySetItem cb (strL "input") parsed)
          | .error e =>
            sseWriteInput st ri (fun cb => do
              let cb1 ← pySetItem cb (strL "input_raw") (.str acc)
              pySetItem cb1 (strL "input_parse_error") (.str e))
        | _, _ => pure st
      let st2 := { st1 with blocks := removeKeyJ st1.blocks bi }
      pure (if (lookupKeyJ st2.refs bi).isSome then { st2 with refs := removeKeyJ st2.refs bi } else st2)

/-- One line of the SSE loop body. -/
def sseLine (st : SSEState) (line0 : Str) : Except Str SSEState := do
  let line := pyStrip line0
  if (strL "event: ").isPrefixOf line then
    pure { st with
      events := st.events ++
        [.obj [(strL "type", .str (line.drop 7)), (strL "raw", .str line), (strL "data", .null)]],
      cur := some st.events.length }
  else if (strL "data: ").isPrefixOf line && st.cur.isSome then do
    let k := st.cur.getD 0
    let data_str := line.drop 6
    if data_str.isEmpty || data_str = strL "[DONE]" then pure st
    else
      match jsonParse data_str with
      | .error _ => do
        let ev := st.events.getD k .null
        let ev1 ← pySetItem ev (strL "data") (.str data_str)
        let rs ← asStr (← pyItem ev1 (strL "raw"))
        let ev2 ← pySetItem ev1 (strL "raw") (.str (rs ++ '\n' :: line))
        pure { st with events := st.events.set k ev2 }
      | .ok d => do
        let ev := st.events.getD k .null
        let ev1 ← pySetItem ev (strL "data") d
        let rs ← asStr (← pyItem ev1 (strL "raw"))
        let ev2 ← pySetItem ev1 (strL "raw") (.str (rs ++ '\n' :: line))
        let st' := { st with events := st.events.set k ev2 }
        let et ← pyGetD ev2 (strL "type") .null
        if pyEqStr et (strL "content_block_start") then sseHandleStart st' k d
        else if pyEqStr et (strL "content_block_delta") then sseHandleDelta st' d
        else if pyEqStr et (strL "content_block_stop") then sseHandleStop st' d
        else pure st'
  else pure st

def sseRun (st : SSEState) : List Str → Except Str SSEState
  | [] => .ok st
  | l :: ls => do sseRun (← sseLine st l) ls

/-- `_parse_sse_events_detailed` (takes the raw Python value, like the
unchecked `body_raw: str` parameter). -/
def _parse_sse_events_detailed (body_raw : JVal) : Except Str (List JVal) := do
  if !(pyTruthy body_raw) then pure []
  else do
    let s ← asStr body_raw
    let st ← sseRun initSSE (splitOnChar '\n' s)
    pure st.events

/-! ### `_process_entry` -/

/-- The token-usage extraction loop body (parser.py lines 165-171). -/
def tokenStep (acc : JVal) (ev : JVal) : Except Str JVal := do
  let t ← pyGetD ev (strL "type") .null
  if pyEqStr t (strL "message_delta") then do
    let d ← pyGetD ev (strL "data") (.obj [])
    let hasU ← pyHasKey (strL "usage") d
    if hasU then do
      let d2 ← pyItem ev (strL "data")
      let usage ← pyItem d2 (strL "usage")
      let inp ← pyGetD usage (strL "input_tokens") .null
      let outp ← pyGetD usage (strL "output_tokens") .null
      pure (.obj [(strL "input", inp), (strL "output", outp)])
    else pure acc
  else pure acc

/-- Rendering of a number in a Python f-string. Only integral status codes
occur in the claims; the non-integral rendering is a placeholder. -/
def showJNum (v : JVal) : Str :=
  match v with
  | .num q =>
    (if q.num < 0 then ['-'] else []) ++ natDigits q.num.natAbs ++
      (if q.den = 1 then [] else '/' :: natDigits q.den)
  | .bool b => if b then strL "True" else strL "False"
  | .str s => s
  | _ => strL "?"

/-- Fields computed by the `if "request" in entry` block, in source order. -/
structure ReqParts where
  requestObj : JVal
  s_ts : JVal
  s_method : JVal
  s_path : JVal
  s_model : JVal

/-- Skeleton values (parser.py lines 62-71 and 86-95) used when the entry
has no `request` key. -/
def defaultReqParts : ReqParts :=
  ⟨.obj [(strL "timestamp", .null), (strL "timestamp_human", .null), (strL "method", .null),
         (strL "url", .null), (strL "headers", .obj []), (strL "body", .null),
         (strL "query_params", .null), (strL "api_key_suffix", .null)],
   .null, .null, .null, .null⟩

/-- parser.py lines 106-132. -/
def requestParts (entry : JVal) : Except Str ReqParts := do
  let req ← pyItem entry (strL "request")
  let r_ts ← pyGetD req (strL "timestamp") .null
  let r_tsh ← _format_timestamp_full r_ts
  let r_method ← pyGetD req (strL "method") (.str (strL "GET"))
  let r_url ← pyGetD req (strL "url") (.str [])
  let r_headers ← pyGetD req (strL "headers") (.obj [])
  let r_body ← pyGetD req (strL "body") .null
  let hasQ ← pyHasKey ['?'] r_url
  let r_qp ←
    if hasQ then do
      let us ← asStr r_url
      pure (JVal.str ((splitOnChar '?' us).getD 1 []))
    else pure JVal.null
  let hasKey ← pyHasKey (strL "x-api-key") r_headers
  let r_suffix ←
    if hasKey then do
      let ak ← pyItem r_headers (strL "x-api-key")
      let n ← pyLen ak
      if n > 10 then do
        let s ← asStr ak
        pure (JVal.str (strL "..." ++ s.drop (s.length - 4)))
      else pure JVal.null
    else pure JVal.null
  let s_ts ← _format_timestamp (← pyGetD req (strL "timestamp") .null)
  let s_method ← pyGetD req (strL "method") (.str (strL "GET"))
  let s_path ← _extract_url_path (← pyGetD req (strL "url") (.str []))
  let bodyv ← pyGetD req (strL "body") .null
  let s_model ←
    match bodyv with
    | .obj _ => pyGetD bodyv (strL "model") .null
    | _ => pure JVal.null
  pure ⟨.obj [(strL "timestamp", r_ts), (strL "timestamp_human", r_tsh),
              (strL "method", r_method), (strL "url", r_url),
              (strL "headers", r_headers), (strL "body", r_body),
              (strL "query_params", r_qp), (strL "api_key_suffix", r_suffix)],
        s_ts, s_method, s_path, s_model⟩

/-- Fields computed by the `if "response" in entry` block, in source order. -/
structure RespParts where
  responseObj : JVal
  s_status : JVal
  s_dur : JVal
  s_tokens : JVal
  s_error : JVal

/-- Skeleton values (parser.py lines 73-84) used when the entry has no
`response` key. -/
def defaultRespParts : RespParts :=
  ⟨.obj [(strL "timestamp", .null), (strL "timestamp_human", .null), (strL "status_code", .null),
         (strL "headers", .obj []), (strL "body", .null), (strL "body_raw", .null),
         (strL "parsed_events", .arr []), (strL "request_id", .null),
         (strL "rate_limits", .obj []), (strL "duration_ms", .null)],
   .null, .null, .null, .null⟩

/-- parser.py lines 134-181. -/
def responseParts (entry : JVal) : Except Str RespParts := do
  let resp ← pyItem entry (strL "response")
  let p_ts ← pyGetD resp (strL "timestamp") .null
  let p_tsh ← _format_timestamp_full p_ts
  let p_status ← pyGetD resp (strL "status_code") .null
  let p_headers ← pyGetD resp (strL "headers") (.obj [])
  let p_body ← pyGetD resp (strL "body") .null
  let p_braw ← pyGetD resp (strL "body_raw") .null
  let h2 ← pyGetD resp (strL "headers") (.obj [])
  let hasRid ← pyHasKey (strL "request-id") h2
  let p_rid ←
    if hasRid then do
      let h3 ← pyItem resp (strL "headers")
      pyItem h3 (strL "request-id")
    else pure JVal.null
  let h4 ← pyGetD resp (strL "headers") (.obj [])
  let p_rate ←
    match h4 with
    | .obj kvs =>
      pure (JVal.obj (kvs.foldl
        (fun a p =>
          if strHasSub (strL "ratelimit") (p.1.map Char.toLower) then insertKey a p.1 p.2 else a)
        []))
    | _ => .error (strL "AttributeError: object has no attribute items")
  let durTest ← do
    let b1 ← pyHasKey (strL "timestamp") resp
    if !b1 then pure false
    else do
      let b2 ← pyHasKey (strL "request") entry
      if !b2 then pure false
      else do
        let rq ← pyItem entry (strL "request")
        pyHasKey (strL "timestamp") rq
  let (p_dur, s_dur) ←
    if durTest then do
      let t2 ← pyItem resp (strL "timestamp")
      let rq ← pyItem entry (strL "request")
      let t1 ← pyItem rq (strL "timestamp")
      let dv ← pySub t2 t1
      match dv with
      | .num q =>
        pure (JVal.num ((ratTrunc (q * 1000) : ℤ) : ℚ), JVal.str (pyFormat3 q ++ ['s']))
      | _ => .error (strL "unreachable: pySub returns a number")
    else pure (JVal.null, JVal.null)
  let braw2 ← pyGetD resp (strL "body_raw") .null
  let (p_events, s_tokens) ←
    if pyTruthy braw2 then do
      let evs ← _parse_sse_events_detailed braw2
      let toks ← evs.foldlM tokenStep JVal.null
      pure (JVal.arr evs, toks)
    else pure (JVal.arr [], JVal.null)
  let st2 ← pyGetD resp (strL "status_code") .null
  let s_error ←
    if pyTruthy st2 then
      match numView st2 with
      | some q =>
        if q ≥ 400 then do
          let bd ← pyGetD resp (strL "body") .null
          if pyTruthy bd then pure bd
          else do
            let sc ← pyItem resp (strL "status_code")
            pure (JVal.str (strL "HTTP " ++ showJNum sc))
        else pure JVal.null
      | none => .error (strL "TypeError: not supported between instances")
    else pure JVal.null
  pure ⟨.obj [(strL "timestamp", p_ts), (strL "timestamp_human", p_tsh),
              (strL "status_code", p_status), (strL "headers", p_headers),
              (strL "body", p_body), (strL "body_raw", p_braw),
              (strL "parsed_events", p_events), (strL "request_id", p_rid),
              (strL "rate_limits", p_rate), (strL "duration_ms", p_dur)],
        st2, s_dur, s_tokens, s_error⟩

/-- The final entry dict, with the top-level keys in literal order
(parser.py lines 57-103). -/
def assembleEntry (index : ℕ) (entry logged_at : JVal) (rp : ReqParts) (sp : RespParts) : JVal :=
  .obj [(strL "index", .num (index : ℚ)),
        (strL "raw_entry", entry),
        (strL "logged_at", logged_at),
        (strL "request", rp.requestObj),
        (strL "response", sp.responseObj),
        (strL "summary", .obj [(strL "timestamp", rp.s_ts), (strL "method", rp.s_method),
          (strL "url_path", rp.s_path), (strL "status", sp.s_status),
          (strL "duration", sp.s_dur), (strL "model", rp.s_model),
          (strL "tokens_used", sp.s_tokens), (strL "error", sp.s_error)]),
        (strL "subagent_info", .obj [(strL "is_subagent", .bool false),
          (strL "agent_type", .null), (strL "detection_method", .null),
          (strL "confidence", .null)])]

/-- `_process_entry`. -/
def _process_entry (entry : JVal) (index : ℕ) : Except Str JVal := do
  let logged_at ← pyGetD entry (strL "logged_at") .null
  let hasReq ← pyHasKey (strL "request") entry
  let rp ← if hasReq then requestParts entry else pure defaultReqParts
  let hasResp ← pyHasKey (strL "response") entry
  let sp ← if hasResp then responseParts entry else pure defaultRespParts
  pure (assembleEntry index entry logged_at rp sp)

/-! ### `subagent_detector.py` -/

/-- `_get_message_count`. -/
def _get_message_count (entry : JVal) : Except Str ℕ := do
  let hasReq ← pyHasKey (strL "request") entry
  if hasReq then do
    let rq ← pyItem entry (strL "request")
    let hasB ← pyHasKey (strL "body") rq
    if hasB then do
      let body ← pyGetD rq (strL "body") (.obj [])
      match body with
      | .obj _ => do
        let msgs ← pyGetD body (strL "messages") (.arr [])
        pyLen msgs
      | _ => pure 0
    else pure 0
  else pure 0

/-- The `for event in ...` loop of `_get_task_subagent_type`. -/
def taskLoop : List JVal → Except Str JVal
  | [] => .ok .null
  | event :: rest => do
    let t ← pyGetD event (strL "type") .null
    if !(pyEqStr t (strL "content_block_start")) then taskLoop rest
    else do
      let d ← pyGetD event (strL "data") (.obj [])
      let cb ← pyGetD d (strL "content_block") (.obj [])
      let ct ← pyGetD cb (strL "type") .null
      if pyEqStr ct (strL "tool_use") then do
        let cn ← pyGetD cb (strL "name") .null
        if pyEqStr cn (strL "Task") then do
          let inp ← pyGetD cb (strL "input") (.obj [])
          match inp with
          | .obj _ => pyGetD inp (strL "subagent_type") .null
          | _ => taskLoop rest
        else taskLoop rest
      else taskLoop rest

/-- Python iteration over an arbitrary value (dicts iterate their keys,
strings their characters). -/
def pyIterate (v : JVal) : Except Str (List JVal) :=
  match v with
  | .arr xs => .ok xs
  | .str s => .ok (s.map fun c => .str [c])
  | .obj kvs => .ok (kvs.map fun p => .str p.1)
  | _ => .error (strL "TypeError: object is not iterable")

/-- `_get_task_subagent_type`. -/
def _get_task_subagent_type (entry : JVal) : Except Str JVal := do
  let hasResp ← pyHasKey (strL "response") entry
  if !hasResp then pure .null
  else do
    let resp ← pyItem entry (strL "response")
    let hasPE ← pyHasKey (strL "parsed_events") resp
    if !hasPE then pure .null
    else do
      let pes ← pyItem resp (strL "parsed_events")
      let evs ← pyIterate pes
      taskLoop evs

/-- `_is_infrastructure_request`. -/
def _is_infrastructure_request (entry : JVal) : Except Str Bool := do
  let h1 ← pyHasKey (strL "request") entry
  let h2 ←
    if h1 then do
      let rq ← pyItem entry (strL "request")
      pyHasKey (strL "body") rq
    else pure false
  if !(h1 && h2) then pure false
  else do
    let rq ← pyItem entry (strL "request")
    let body ← pyGetD rq (strL "body") (.obj [])
    match body with
    | .obj _ => do
      let msgs ← pyGetD body (strL "messages") (.arr [])
      let n ← pyLen msgs
      if n ≠ 1 then pure false
      else do
        let sys0 ← pyGetD body (strL "system") (.str [])
        let sys1 ←
          match sys0 with
          | .arr (x :: _) =>
            match x with
            | .obj _ => pyGetD x (strL "text") (.str [])
            | _ => pure x
          | _ => pure sys0
        match sys1 with
        | .str s => pure (!((strL "You are Claude Code").isPrefixOf s))
        | _ => pure false
    | _ => pure false

/-- One iteration of the `detect_subagent_conversations` loop, carrying
`(active_subagent, prev_msg_count)` and returning the (possibly tagged)
entry. -/
def detectStep (st : JVal × ℕ) (entry : JVal) : Except Str ((JVal × ℕ) × JVal) := do
  let task ← _get_task_subagent_type entry
  if pyTruthy task then do
    let c ← _get_message_count entry
    pure ((task, c), entry)
  else do
    let infra ← _is_infrastructure_request entry
    if infra then pure (st, entry)
    else do
      let c ← _get_message_count entry
      let active := if pyTruthy st.1 && decide (0 < st.2) && decide (st.2 + 50 < c)
        then JVal.null else st.1
      if pyTruthy active then do
        let e' ← pySetItem entry (strL "subagent_info")
          (.obj [(strL "is_subagent", .bool true), (strL "agent_type", active),
                 (strL "detection_method", .str (strL "conversation_flow"))])
        pure ((active, c), e')
      else pure ((active, c), entry)

def detectGo (st : JVal × ℕ) : List JVal → Except Str (List JVal)
  | [] => .ok []
  | e :: rest => do
    let (st', e') ← detectStep st e
    let rest' ← detectGo st' rest
    pure (e' :: rest')

/-- `detect_subagent_conversations` (in-place mutation modelled as
returning the updated entry list). -/
def detect_subagent_conversations (entries : List JVal) : Except Str (List JVal) :=
  detectGo (.null, 0) entries

/-! ### `parse_trace_file` -/

/-- An error entry for an undecodable line (parser.py lines 38-44). -/
def errorEntry (i : ℕ) (msg : Str) (line : Str) : JVal :=
  .obj [(strL "index", .num (i : ℚ)),
        (strL "error", .str (strL "JSON parse error: " ++ msg)),
        (strL "raw_line", .str (if 500 < line.length then line.take 500 ++ strL "..." else line))]

/-- The per-line loop of `parse_trace_file`, with `i` the 1-based number of
the current line. -/
def goLines (i : ℕ) : List Str → Except Str (List JVal)
  | [] => .ok []
  | line :: rest =>
    if (pyStrip line).isEmpty then goLines (i + 1) rest
    else
      match jsonParse line with
      | .ok entry => do
        let parsed ← _process_entry entry i
        let es ← goLines (i + 1) rest
        pure (parsed :: es)
      | .error e => do
        let es ← goLines (i + 1) rest
        pure (errorEntry i e line :: es)

/-- `parse_trace_file`, on the file's lines. -/
def parse_trace_file (lines : List Str) : Except Str (List JVal) := do
  let entries ← goLines 1 lines
  detect_subagent_conversations entries

/-! ### Observables and claim inputs -/

/-- Field access on an entry dict, for stating properties of outputs. -/
def jLook (e : JVal) (k : Str) : JVal :=
  match e with
  | .obj kvs => (lookupStr k kvs).getD .null
  | _ => .null

/-- Entry with optional request/response timestamps and nothing else. -/
def mkTsEntry (t1 t2 : Option ℚ) : JVal :=
  .obj [(strL "request", .obj (match t1 with
          | some q => [(strL "timestamp", .num q)]
          | none => [])),
        (strL "response", .obj (match t2 with
          | some q => [(strL "timestamp", .num q)]
          | none => []))]

/-- What `_format_timestamp_full` produces on an in-range number. -/
def fmtTsFull (q : ℚ) : JVal := if q = 0 then .null else .str (fmtFull q)

/-- What `_format_timestamp` produces on an in-range number. -/
def fmtTsShort (q : ℚ) : JVal := if q = 0 then .null else .str (fmtHMS q)

/-- A decodable line whose request and response timestamps are both JSON
`null` — shaped input on which `_process_entry` hits `None - None`. -/
def nullTsLine : Str :=
  strL "\x7b\"request\": \x7b\"timestamp\": null\x7d, \"response\": \x7b\"timestamp\": null\x7d\x7d"

/-- Entry whose request carries the given headers dict. -/
def mkHdrEntry (hdrs : List (Str × JVal)) : JVal :=
  .obj [(strL "request", .obj [(strL "headers", .obj hdrs)])]

/-- A concrete API key of length 21 (> 10). -/
def fullKey : Str := strL "sk-ant-0123456789abcd"

/-! Detector test entries (parsed-entry shape). -/

def mkMsgs (n : ℕ) : JVal :=
  .arr (List.replicate n (.obj [(strL "role", .str (strL "user"))]))

/-- A `content_block_start` event invoking the Task tool with the given
`subagent_type`. -/
def taskEvent (agent : Str) : JVal :=
  .obj [(strL "type", .str (strL "content_block_start")),
        (strL "raw", .str []),
        (strL "data", .obj [(strL "index", .num 0),
          (strL "content_block", .obj [(strL "type", .str (strL "tool_use")),
            (strL "id", .str (strL "t1")), (strL "name", .str (strL "Task")),
            (strL "input", .obj [(strL "subagent_type", .str agent)])])])]

/-- The main-agent identity marker used by `_is_infrastructure_request`. -/
def mainMarker : Str := strL "You are Claude Code, Anthropic's official CLI for Claude."

/-- A parsed-entry-shaped record with `n` messages, system prompt `sys` and
parsed events `pe`. -/
def detEntry (n : ℕ) (sys : Str) (pe : List JVal) : JVal :=
  .obj [(strL "request", .obj [(strL "body",
          .obj [(strL "messages", mkMsgs n), (strL "system", .str sys)])]),
        (strL "response", .obj [(strL "parsed_events", .arr pe)]),
        (strL "subagent_info", .obj [(strL "is_subagent", .bool false),
          (strL "agent_type", .null), (strL "detection_method", .null),
          (strL "confidence", .null)])]

/-- The `subagent_info` dict written by the detector. -/
def tagInfo (agent : JVal) : JVal :=
  .obj [(strL "is_subagent", .bool true), (strL "agent_type", agent),
        (strL "detection_method", .str (strL "conversation_flow"))]

/-- Entry tagged by the detector. -/
def tagged (e : JVal) (agent : JVal) : JVal :=
  match e with
  | .obj kvs => .obj (insertKey kvs (strL "subagent_info") (tagInfo agent))
  | _ => e

/-- The C5 scenario: main(5), Task→reviewer(6), sub(1), sub(2), main(60). -/
def c5e1 : JVal := detEntry 5 mainMarker []
def c5e2 : JVal := detEntry 6 mainMarker [taskEvent (strL "reviewer")]
def c5e3 : JVal := detEntry 1 mainMarker []
def c5e4 : JVal := detEntry 2 mainMarker []
def c5e5 : JVal := detEntry 60 mainMarker []

/-- C6 counterexample: an infrastructure-shaped entry (1 message,
non-marker prompt) whose response invokes Task. -/
def c6infraTask : JVal :=
  detEntry 1 (strL "Analyze this bash command") [taskEvent (strL "helper")]
def c6conv : JVal := detEntry 2 mainMarker []

/-! C7 inputs: a stream whose last usage-bearing event is not a
`message_delta`. -/

def c7braw : Str :=
  strL "event: message_delta\ndata: \x7b\"type\":\"message_delta\",\"usage\":\x7b\"input_tokens\":1,\"output_tokens\":2\x7d\x7d\nevent: message_start\ndata: \x7b\"usage\":\x7b\"input_tokens\":3,\"output_tokens\":4\x7d\x7d"

def c7entry : JVal := .obj [(strL "response", .obj [(strL "body_raw", .str c7braw)])]

/-- Modelled from the spec: "scan the reconstructed events for any carrying
a usage object; the last such object found populates `summary.tokens_used`".
The usage object carried by an event, regardless of the event type. -/
def specUsageOf (ev : JVal) : Option JVal :=
  match ev with
  | .obj kvs =>
    match lookupStr (strL "data") kvs with
    | some (.obj dk) => lookupStr (strL "usage") dk
    | _ => none
  | _ => none

/-- Modelled from the spec: `tokens_used` taken from the last usage-bearing
event of the stream. -/
def specTokensUsed (evs : List JVal) : JVal :=
  match (evs.filterMap specUsageOf).getLast? with
  | some (.obj uk) =>
    .obj [(strL "input", (lookupStr (strL "input_tokens") uk).getD .null),
          (strL "output", (lookupStr (strL "output_tokens") uk).getD .null)]
  | some _ => .null
  | none => .null

/-- The `{input, output}` summary this event contributes in the code's
loop: only `message_delta` events whose data carries a usage dict count. -/
def tokenHit (ev : JVal) : Option JVal :=
  match ev with
  | .obj kvs =>
    match lookupStr (strL "type") kvs, lookupStr (strL "data") kvs with
    | some (.str t), some (.obj dkvs) =>
      if t = strL "message_delta" then
        match lookupStr (strL "usage") dkvs with
        | some (.obj ukvs) =>
          some (.obj [(strL "input", (lookupStr (strL "input_tokens") ukvs).getD .null),
                      (strL "output", (lookupStr (strL "output_tokens") ukvs).getD .null)])
        | _ => none
      else none
    | _, _ => none
  | _ => none

/-- Events on which the token-usage loop cannot raise: well-formed dicts
whose `message_delta` data (if any) is a dict with a dict-valued `usage`. -/
def tokenSafe (ev : JVal) : Bool :=
  match ev with
  | .obj kvs =>
    match lookupStr (strL "type") kvs with
    | some (.str t) =>
      if t = strL "message_delta" then
        match lookupStr (strL "data") kvs with
        | some (.obj dkvs) =>
          match lookupStr (strL "usage") dkvs with
          | some (.obj _) => true
          | some _ => false
          | none => true
        | some _ => false
        | none => true
      else true
    | some _ => true
    | none => true
  | _ => false

/-- 1-based positions of the non-blank lines, starting at line `i`. -/
def nonBlankIdx (i : ℕ) : List Str → List ℕ
  | [] => []
  | l :: rest =>
    if (pyStrip l).isEmpty then nonBlankIdx (i + 1) rest
    else i :: nonBlankIdx (i + 1) rest

/-! ### Stream builders for the reassembly claims

`mkToolStream idx id name frags` is the SSE text of one `tool_use` content
block whose `input_json_delta` fragments are exactly `frags`. The fragment
text is arbitrary; it is JSON-string-escaped into the delta payloads. -/

def hexDigit (n : ℕ) : Char :=
  if n < 10 then Char.ofNat ('0'.toNat + n) else Char.ofNat ('a'.toNat + (n - 10))

/-- JSON string escaping of one character (as `json.dumps` would emit for
the characters that occur in claims: quote, backslash, control chars). -/
def escChar (c : Char) : Str :=
  if c = '"' then ['\\', '"']
  else if c = '\\' then ['\\', '\\']
  else if c = '\n' then ['\\', 'n']
  else if c = '\r' then ['\\', 'r']
  else if c = '\t' then ['\\', 't']
  else if c.toNat < 32 then ['\\', 'u', '0', '0', hexDigit (c.toNat / 16), hexDigit (c.toNat % 16)]
  else [c]

def escBody (s : Str) : Str := (s.map escChar).flatten

/-- A JSON string literal for `s`. -/
def encStr (s : Str) : Str := '"' :: (escBody s ++ ['"'])

/-- Payload of the `content_block_start` data line, written in the nested
shape `{"type":"content_block_start","index":IDX,"content_block":
{"type":"tool_use","id":ID,"name":NAME}}`. -/
def sseStartPayload (idx : ℕ) (id name : Str) : Str :=
  '\x7b' :: (encStr (strL "type") ++ ':' ::
    (encStr (strL "content_block_start") ++ ',' ::
      (encStr (strL "index") ++ ':' ::
        (natDigits idx ++ ',' ::
          (encStr (strL "content_block") ++ ':' ::
            ('\x7b' :: (encStr (strL "type") ++ ':' ::
              (encStr (strL "tool_use") ++ ',' ::
                (encStr (strL "id") ++ ':' ::
                  (encStr id ++ ',' ::
                    (encStr (strL "name") ++ ':' ::
                      (encStr name ++ '\x7d' :: ['\x7d']))))))))))))

/-- Payload `{"index":IDX,"delta":{"type":"input_json_delta",
"partial_json":FRAG}}`. -/
def sseDeltaPayload (idx : ℕ) (frag : Str) : Str :=
  '\x7b' :: (encStr (strL "index") ++ ':' ::
    (natDigits idx ++ ',' ::
      (encStr (strL "delta") ++ ':' ::
        ('\x7b' :: (encStr (strL "type") ++ ':' ::
          (encStr (strL "input_json_delta") ++ ',' ::
            (encStr (strL "partial_json") ++ ':' ::
              (encStr frag ++ '\x7d' :: ['\x7d']))))))))

/-- Payload `{"index":IDX}`. -/
def sseStopPayload (idx : ℕ) : Str :=
  '\x7b' :: (encStr (strL "index") ++ ':' :: (natDigits idx ++ ['\x7d']))

def sseStartLine (idx : ℕ) (id name : Str) : Str :=
  strL "data: " ++ sseStartPayload idx id name

def sseDeltaLine (idx : ℕ) (frag : Str) : Str :=
  strL "data: " ++ sseDeltaPayload idx frag

def sseStopLine (idx : ℕ) : Str :=
  strL "data: " ++ sseStopPayload idx

def mkToolStream (idx : ℕ) (id name : Str) (frags : List Str) : Str :=
  List.intercalate ['\n']
    ([strL "event: content_block_start", sseStartLine idx id name] ++
     (frags.flatMap fun f => [strL "event: content_block_delta", sseDeltaLine idx f]) ++
     [strL "event: content_block_stop", sseStopLine idx])

/-- Decoded data of the start event, with `extra` the key/values appended
to the content block when its stop event is handled. -/
def startEvData (idx : ℕ) (id name : Str) (extra : List (Str × JVal)) : JVal :=
  .obj [(strL "type", .str (strL "content_block_start")),
        (strL "index", .num (idx : ℚ)),
        (strL "content_block", .obj ([(strL "type", .str (strL "tool_use")),
          (strL "id", .str id), (strL "name", .str name)] ++ extra))]

def expStartEvent (idx : ℕ) (id name : Str) (extra : List (Str × JVal)) : JVal :=
  .obj [(strL "type", .str (strL "content_block_start")),
        (strL "raw", .str (strL "event: content_block_start" ++ '\n' :: sseStartLine idx id name)),
        (strL "data", startEvData idx id name extra)]

def expDeltaEvent (idx : ℕ) (frag : Str) : JVal :=
  .obj [(strL "type", .str (strL "content_block_delta")),
        (strL "raw", .str (strL "event: content_block_delta" ++ '\n' :: sseDeltaLine idx frag)),
        (strL "data", .obj [(strL "index", .num (idx : ℚ)),
          (strL "delta", .obj [(strL "type", .str (strL "input_json_delta")),
            (strL "partial_json", .str frag)])])]

def expStopEvent (idx : ℕ) : JVal :=
  .obj [(strL "type", .str (strL "content_block_stop")),
        (strL "raw", .str (strL "event: content_block_stop" ++ '\n' :: sseStopLine idx)),
        (strL "data", .obj [(strL "index", .num (idx : ℚ))])]

/-- The full event list produced for `mkToolStream`. -/
def expToolEvents (idx : ℕ) (id name : Str) (frags : List Str)
    (extra : List (Str × JVal)) : List JVal :=
  expStartEvent idx id name extra :: (frags.map (expDeltaEvent idx) ++ [expStopEvent idx])

/-- Number of `content_block_start` events in a parsed event list. -/
def countStarts (evs : List JVal) : ℕ :=
  (evs.filter fun ev => pyEqStr (jLook ev (strL "type")) (strL "content_block_start")).length

/-- The reconstructed tool input of an event. -/
def inputOf (ev : JVal) : JVal :=
  jLook (jLook (jLook ev (strL "data")) (strL "content_block")) (strL "input")

/-- An infrastructure-shaped entry (1 message, non-marker prompt) with no
Task invocation. -/
def c6infra1 : JVal := detEntry 1 (strL "Extract the file names") []

/-- First and last character of a string are not Python whitespace. -/
def edgeOk (s : Str) : Bool :=
  (match s.head? with | some c => !pyWs c | none => true) &&
  (match s.getLast? with | some c => !pyWs c | none => true)

/-- The next character cannot extend a JSON number (used to delimit digit
runs in parsed payloads). -/
def numBoundary (s : Str) : Bool :=
  match s.head? with
  | none => true
  | some c => !(isDig c || c = '.' || c = 'e' || c = 'E' || c = '-')

/-! ## Theorems -/

theorem okBind {E A B : Type} (u : A) (g : A → Except E B) : (Except.ok u >>= g) = g u := rfl

theorem errBind {E A B : Type} (bad : E) (g : A → Except E B) :
    (Except.error bad >>= g : Except E B) = .error bad := rfl

theorem pureExc {E A : Type} (u : A) : (pure u : Except E A) = .ok u := rfl

theorem bindEqOk {E A B : Type} {m : Except E A} {g : A → Except E B} {out : B} :
    (m >>= g) = .ok out ↔ ∃ u, m = .ok u ∧ g u = .ok out := by
  cases m with
  | ok u => simp [okBind]
  | error bad => simp [errBind]

/-- On an in-range numeric timestamp, the full formatter returns
`fmtTsFull` (and never raises). -/
theorem fmtFull_ok (q : ℚ) (h : tsInRangeB q = true) :
    _format_timestamp_full (.num q) = .ok (fmtTsFull q) := by
  unfold _format_timestamp_full fmtTsFull
  by_cases hq : q = 0 <;> simp [pyTruthy, hq, numView, h]

theorem fmtShort_ok (q : ℚ) (h : tsInRangeB q = true) :
    _format_timestamp (.num q) = .ok (fmtTsShort q) := by
  unfold _format_timestamp fmtTsShort
  by_cases hq : q = 0 <;> simp [pyTruthy, hq, numView, h]

theorem fmtFull_null : _format_timestamp_full .null = .ok .null := rfl

theorem fmtShort_null : _format_timestamp .null = .ok .null := rfl

/-- `requestParts` on an entry whose request has just a numeric timestamp. -/
theorem requestParts_ts (q1 : ℚ) (t2 : Option ℚ) (h : tsInRangeB q1 = true) :
    requestParts (mkTsEntry (some q1) t2) =
      .ok ⟨.obj [(strL "timestamp", .num q1), (strL "timestamp_human", fmtTsFull q1),
                 (strL "method", .str (strL "GET")), (strL "url", .str []),
                 (strL "headers", .obj []), (strL "body", .null),
                 (strL "query_params", .null), (strL "api_key_suffix", .null)],
           fmtTsShort q1, .str (strL "GET"), .str [], .null⟩ := by
  have h1 := fmtFull_ok q1 h
  have h2 := fmtShort_ok q1 h
  simp +decide only [requestParts, mkTsEntry, pyItem, pyGetD, pyHasKey, pyTruthy,
    lookupStr, _extract_url_path, h1, h2, okBind, errBind, pureExc,
    ite_true, ite_false, Option.getD_some, Option.getD_none, Option.isSome_some,
    Option.isSome_none, Bool.not_true, Bool.not_false, List.isEmpty_nil]

/-- `requestParts` on an entry whose request dict is empty. -/
theorem requestParts_noTs (t2 : Option ℚ) :
    requestParts (mkTsEntry none t2) =
      .ok ⟨.obj [(strL "timestamp", .null), (strL "timestamp_human", .null),
                 (strL "method", .str (strL "GET")), (strL "url", .str []),
                 (strL "headers", .obj []), (strL "body", .null),
                 (strL "query_params", .null), (strL "api_key_suffix", .null)],
           .null, .str (strL "GET"), .str [], .null⟩ := rfl

/-- `responseParts` when both timestamps are numeric: the duration fields
are computed from the exact difference. -/
theorem responseParts_ts (q1 q2 : ℚ) (h : tsInRangeB q2 = true) :
    responseParts (mkTsEntry (some q1) (some q2)) =
      .ok ⟨.obj [(strL "timestamp", .num q2), (strL "timestamp_human", fmtTsFull q2),
                 (strL "status_code", .null), (strL "headers", .obj []),
                 (strL "body", .null), (strL "body_raw", .null),
                 (strL "parsed_events", .arr []), (strL "request_id", .null),
                 (strL "rate_limits", .obj []),
                 (strL "duration_ms", .num ((ratTrunc ((q2 - q1) * 1000) : ℤ) : ℚ))],
           .null, .str (pyFormat3 (q2 - q1) ++ ['s']), .null, .null⟩ := by
  have h1 := fmtFull_ok q2 h
  simp +decide only [responseParts, mkTsEntry, pyItem, pyGetD, pyHasKey, pyTruthy,
    lookupStr, pySub, numView, h1, okBind, errBind, pureExc,
    ite_true, ite_false, Option.getD_some, Option.getD_none, Option.isSome_some,
    Option.isSome_none, Bool.not_true, Bool.not_false, List.isEmpty_nil, List.foldl]

/-- `responseParts` when the response has no timestamp: no duration. -/
theorem responseParts_noRespTs (t1 : Option ℚ) :
    responseParts (mkTsEntry t1 none) =
      .ok ⟨.obj [(strL "timestamp", .null), (strL "timestamp_human", .null),
                 (strL "status_code", .null), (strL "headers", .obj []),
                 (strL "body", .null), (strL "body_raw", .null),
                 (strL "parsed_events", .arr []), (strL "request_id", .null),
                 (strL "rate_limits", .obj []), (strL "duration_ms", .null)],
           .null, .null, .null, .null⟩ := by
  cases t1 <;> rfl

/-- `responseParts` when only the response timestamp is present: the
request side of the conjunction fails, so no duration. -/
theorem responseParts_noReqTs (q2 : ℚ) (h : tsInRangeB q2 = true) :
    responseParts (mkTsEntry none (some q2)) =
      .ok ⟨.obj [(strL "timestamp", .num q2), (strL "timestamp_human", fmtTsFull q2),
                 (strL "status_code", .null), (strL "headers", .obj []),
                 (strL "body", .null), (strL "body_raw", .null),
                 (strL "parsed_events", .arr []), (strL "request_id", .null),
                 (strL "rate_limits", .obj []), (strL "duration_ms", .null)],
           .null, .null, .null, .null⟩ := by
  have h1 := fmtFull_ok q2 h
  simp +decide only [responseParts, mkTsEntry, pyItem, pyGetD, pyHasKey, pyTruthy,
    lookupStr, pySub, numView, h1, okBind, errBind, pureExc,
    ite_true, ite_false, Option.getD_some, Option.getD_none, Option.isSome_some,
    Option.isSome_none, Bool.not_true, Bool.not_false, List.isEmpty_nil, List.foldl]

/-- Composition: `_process_entry` on a timestamps-only entry. -/
theorem processEntry_mkTs (t1 t2 : Option ℚ) (rp : ReqParts) (sp : RespParts)
    (hrp : requestParts (mkTsEntry t1 t2) = .ok rp)
    (hsp : responseParts (mkTsEntry t1 t2) = .ok sp) :
    _process_entry (mkTsEntry t1 t2) 1 =
      .ok (assembleEntry 1 (mkTsEntry t1 t2) .null rp sp) := by
  have hrp' := hrp
  have hsp' := hsp
  simp only [mkTsEntry] at hrp' hsp'
  simp +decide only [_process_entry, mkTsEntry, pyGetD, pyHasKey, lookupStr,
    hrp', hsp', okBind, errBind, pureExc, ite_true, ite_false,
    Option.getD_some, Option.getD_none, Option.isSome_some, Option.isSome_none]

/-- C9: duration fields are computed exactly when both timestamps are
present (as numbers in the representable range), as truncated integer
milliseconds of the exact difference and as a 3-decimal seconds string;
when either timestamp is absent both fields stay `None`. -/
theorem C9_duration_exact (q1 q2 : ℚ)
    (h1 : tsInRangeB q1 = true) (h2 : tsInRangeB q2 = true) :
    ((_process_entry (mkTsEntry (some q1) (some q2)) 1).map (fun e =>
        (jLook (jLook e (strL "response")) (strL "duration_ms"),
         jLook (jLook e (strL "summary")) (strL "duration"))) =
      .ok (.num ((ratTrunc ((q2 - q1) * 1000) : ℤ) : ℚ),
           .str (pyFormat3 (q2 - q1) ++ ['s']))) ∧
    ((_process_entry (mkTsEntry (some q1) none) 1).map (fun e =>
        (jLook (jLook e (strL "response")) (strL "duration_ms"),
         jLook (jLook e (strL "summary")) (strL "duration"))) =
      .ok (.null, .null)) ∧
    ((_process_entry (mkTsEntry none (some q2)) 1).map (fun e =>
        (jLook (jLook e (strL "response")) (strL "duration_ms"),
         jLook (jLook e (strL "summary")) (strL "duration"))) =
      .ok (.null, .null)) ∧
    ((_process_entry (mkTsEntry none none) 1).map (fun e =>
        (jLook (jLook e (strL "response")) (strL "duration_ms"),
         jLook (jLook e (strL "summary")) (strL "duration"))) =
      .ok (.null, .null)) := by
  refine ⟨?_, ?_, ?_, ?_⟩
  · rw [processEntry_mkTs _ _ _ _ (requestParts_ts q1 (some q2) h1) (responseParts_ts q1 q2 h2)]
    simp +decide only [Except.map, assembleEntry, jLook, lookupStr, ite_true, ite_false,
      Option.getD_some, Option.getD_none]
  · rw [processEntry_mkTs _ _ _ _ (requestParts_ts q1 none h1) (responseParts_noRespTs (some q1))]
    simp +decide only [Except.map, assembleEntry, jLook, lookupStr, ite_true, ite_false,
      Option.getD_some, Option.getD_none]
  · rw [processEntry_mkTs _ _ _ _ (requestParts_noTs (some q2)) (responseParts_noReqTs q2 h2)]
    simp +decide only [Except.map, assembleEntry, jLook, lookupStr, ite_true, ite_false,
      Option.getD_some, Option.getD_none]
  · rw [processEntry_mkTs _ _ _ _ (requestParts_noTs none) (responseParts_noRespTs none)]
    simp +decide only [Except.map, assembleEntry, jLook, lookupStr, ite_true, ite_false,
      Option.getD_some, Option.getD_none]

/-- `rhe` is the identity on integers. -/
theorem rhe_int (z : ℤ) : rhe ((z : ℚ)) = z := by
  simp only [rhe, Rat.num_intCast, Rat.den_intCast, Nat.cast_one, Int.fdiv_one]
  norm_num

/-- `fromtsUS` on the two concrete timestamps of the C9 witness. -/
theorem fromtsUS_100 : fromtsUS 100 = 100000000 := by
  unfold fromtsUS
  rw [show ((100 : ℚ) * 1000000) = ((100000000 : ℤ) : ℚ) by norm_num, rhe_int]

theorem fromtsUS_100_25 : fromtsUS (401 / 4) = 100250000 := by
  unfold fromtsUS
  rw [show ((401 : ℚ) / 4 * 1000000) = ((100250000 : ℤ) : ℚ) by norm_num, rhe_int]

theorem tsInRangeB_100 : tsInRangeB 100 = true := by
  unfold tsInRangeB
  rw [fromtsUS_100]
  decide

theorem tsInRangeB_100_25 : tsInRangeB (401 / 4) = true := by
  unfold tsInRangeB
  rw [fromtsUS_100_25]
  decide

/-- Witness for C9 at the claim's concrete input: request timestamp 100.0,
response timestamp 100.25 give `duration_ms == 250` and
`summary.duration == "0.250s"`. -/
theorem C9_duration_exact_witness :
    tsInRangeB 100 = true ∧ tsInRangeB (401 / 4) = true ∧
    ((_process_entry (mkTsEntry (some 100) (some (401 / 4))) 1).map (fun e =>
        (jLook (jLook e (strL "response")) (strL "duration_ms"),
         jLook (jLook e (strL "summary")) (strL "duration"))) =
      .ok (.num 250, .str (strL "0.250s"))) := by
  refine ⟨tsInRangeB_100, tsInRangeB_100_25, ?_⟩
  have h := (C9_duration_exact 100 (401 / 4) tsInRangeB_100 tsInRangeB_100_25).1
  rw [h]
  have hd : ((401 : ℚ) / 4 - 100) = 1 / 4 := by norm_num
  have hms : (((401 : ℚ) / 4 - 100) * 1000) = ((250 : ℤ) : ℚ) := by norm_num
  have h1 : ratTrunc (((401 : ℚ) / 4 - 100) * 1000) = 250 := by
    rw [hms]
    simp only [ratTrunc, Rat.num_intCast, Rat.den_intCast]
    decide
  have h2 : pyFormat3 ((401 : ℚ) / 4 - 100) = strL "0.250" := by
    have hr : rhe (((401 : ℚ) / 4 - 100) * 1000) = 250 := by
      rw [hms, rhe_int]
    have hneg : ¬(((401 : ℚ) / 4 - 100) < 0) := by norm_num
    simp only [pyFormat3, hr, if_neg hneg]
    decide
  rw [h1, h2]
  rfl

/-- C10: a timestamp equal to `0.0` (the Unix epoch) is falsy in Python, so
both formatters return `None` for it, exactly as for a missing timestamp;
consequently `summary.timestamp`, `request.timestamp_human` and
`response.timestamp_human` of an entry with epoch-zero timestamps equal
those of an entry with no timestamps at all. -/
theorem C10_epoch_zero_is_missing :
    _format_timestamp (.num 0) = .ok .null ∧
    _format_timestamp .null = .ok .null ∧
    _format_timestamp_full (.num 0) = .ok .null ∧
    _format_timestamp_full .null = .ok .null ∧
    ((_process_entry (mkTsEntry (some 0) (some 0)) 1).map (fun e =>
        (jLook (jLook e (strL "summary")) (strL "timestamp"),
         jLook (jLook e (strL "request")) (strL "timestamp_human"),
         jLook (jLook e (strL "response")) (strL "timestamp_human"))) =
      .ok (.null, .null, .null)) ∧
    ((_process_entry (mkTsEntry none none) 1).map (fun e =>
        (jLook (jLook e (strL "summary")) (strL "timestamp"),
         jLook (jLook e (strL "request")) (strL "timestamp_human"),
         jLook (jLook e (strL "response")) (strL "timestamp_human"))) =
      .ok (.null, .null, .null)) := by
  refine ⟨rfl, rfl, rfl, rfl, ?_, rfl⟩
  rfl

/-- C5: on the sequence [main(5), Task→"reviewer"(6), sub(1), sub(2),
main(60)], the detector tags exactly the third and fourth entries with
`is_subagent=True, agent_type="reviewer",
detection_method="conversation_flow"`; the Task-invoking entry is not
tagged and the 60-message entry ends the sub-agent context (jump 58 > 50)
and stays untagged. -/
theorem C5_subagent_tagging :
    detect_subagent_conversations [c5e1, c5e2, c5e3, c5e4, c5e5] =
      .ok [c5e1, c5e2,
           tagged c5e3 (.str (strL "reviewer")),
           tagged c5e4 (.str (strL "reviewer")),
           c5e5] := by
  rfl

/-- C6 counterexample: an entry with exactly one message and a non-marker
system prompt whose response invokes `Task(subagent_type="helper")` DOES
trigger a state transition — the following conversation entry gets tagged
as sub-agent "helper". The claim as stated (never a transition, even with
a Task invocation) is false on the code: the Task check precedes the
infrastructure filter. -/
theorem C6_counterexample :
    _is_infrastructure_request c6infraTask = .ok true ∧
    detect_subagent_conversations [c6infraTask, c6conv] =
      .ok [c6infraTask, tagged c6conv (.str (strL "helper"))] := by
  exact ⟨rfl, rfl⟩

/-- C6 (amended): an infrastructure-shaped entry (exactly one message and a
system prompt not starting with the main-agent marker) whose response does
NOT invoke a Task tool with a truthy `subagent_type` causes no state
transition and is never tagged, in any detector state; if such an entry's
response DOES invoke Task with a truthy `subagent_type`, the Task
transition fires first and sets the active sub-agent and previous count. -/
theorem C6_infrastructure_skip (s : JVal × ℕ) (e : JVal) :
    ((_get_task_subagent_type e).map pyTruthy = .ok false →
      _is_infrastructure_request e = .ok true →
      detectStep s e = .ok (s, e)) ∧
    (∀ t c, _get_task_subagent_type e = .ok t → pyTruthy t = true →
      _get_message_count e = .ok c →
      detectStep s e = .ok ((t, c), e)) := by
  constructor
  · intro htask hinfra
    obtain ⟨t, ht, htf⟩ : ∃ t, _get_task_subagent_type e = .ok t ∧ pyTruthy t = false := by
      cases hx : _get_task_subagent_type e with
      | ok t =>
        refine ⟨t, rfl, ?_⟩
        rw [hx] at htask
        simpa [Except.map] using htask
      | error m => rw [hx] at htask; simp [Except.map] at htask
    simp only [detectStep, ht, okBind, htf, Bool.false_eq_true, if_false, hinfra,
      ite_true, pureExc]
  · intro t c ht htt hc
    simp only [detectStep, ht, okBind, htt, if_true, hc, pureExc]

/-- Witness for C6 (amended), at a concrete infrastructure entry with no
Task call (in an active sub-agent state) and at the Task-invoking
infrastructure entry. -/
theorem C6_infrastructure_skip_witness :
    detectStep (.str (strL "rev"), 3) c6infra1 = .ok ((.str (strL "rev"), 3), c6infra1) ∧
    detectStep (.null, 0) c6infraTask = .ok ((.str (strL "helper"), 1), c6infraTask) :=
  ⟨(C6_infrastructure_skip (.str (strL "rev"), 3) c6infra1).1 rfl rfl,
   (C6_infrastructure_skip (.null, 0) c6infraTask).2 (.str (strL "helper")) 1 rfl rfl rfl⟩

/-- C2 counterexample: for a request whose `x-api-key` header is 21
characters long, the full key value appears verbatim in the produced entry
— both under `request.headers` and under `raw_entry` — so it is not true
that only the redacted suffix form appears in the output. -/
theorem C2_counterexample :
    10 < fullKey.length ∧
    ((_process_entry (mkHdrEntry [(strL "x-api-key", .str fullKey)]) 1).map (fun e =>
        (jLook (jLook (jLook e (strL "request")) (strL "headers")) (strL "x-api-key"),
         jLook (jLook (jLook (jLook e (strL "raw_entry")) (strL "request")) (strL "headers"))
           (strL "x-api-key"),
         jLook (jLook e (strL "request")) (strL "api_key_suffix"))) =
      .ok (.str fullKey, .str fullKey, .str (strL "...abcd"))) := by
  exact ⟨by decide, rfl⟩

/-- C2 (amended): when the request headers carry `x-api-key` with a string
value longer than 10 characters, `request.api_key_suffix` is exactly
`"..." + last 4 characters`; the headers dict itself (full key included)
is still stored verbatim in `request.headers`. -/
theorem C2_redaction_suffix (hdrs : List (Str × JVal)) (k : Str)
    (hk : lookupStr (strL "x-api-key") hdrs = some (.str k))
    (hlen : 10 < k.length) :
    (_process_entry (mkHdrEntry hdrs) 1).map (fun e =>
        (jLook (jLook e (strL "request")) (strL "api_key_suffix"),
         jLook (jLook e (strL "request")) (strL "headers"))) =
      .ok (.str (strL "..." ++ k.drop (k.length - 4)), .obj hdrs) := by
  have hrp : requestParts (mkHdrEntry hdrs) =
      .ok ⟨.obj [(strL "timestamp", .null), (strL "timestamp_human", .null),
                 (strL "method", .str (strL "GET")), (strL "url", .str []),
                 (strL "headers", .obj hdrs), (strL "body", .null),
                 (strL "query_params", .null),
                 (strL "api_key_suffix", .str (strL "..." ++ k.drop (k.length - 4)))],
           .null, .str (strL "GET"), .str [], .null⟩ := by
    simp +decide only [requestParts, mkHdrEntry, pyItem, pyGetD, pyHasKey, pyTruthy,
      lookupStr, _extract_url_path, asStr, pyLen, strHasSub, hk, hlen, okBind, errBind,
      pureExc, ite_true, ite_false, Option.getD_some, Option.getD_none,
      Option.isSome_some, Option.isSome_none, Bool.not_true, Bool.not_false,
      List.isEmpty_nil, List.isEmpty_cons, fmtFull_null, fmtShort_null]
  simp only [mkHdrEntry] at hrp
  simp +decide only [_process_entry, mkHdrEntry, pyGetD, pyHasKey, lookupStr, hrp,
    okBind, errBind, pureExc, ite_true, ite_false, Option.getD_some, Option.getD_none,
    Option.isSome_some, Option.isSome_none]
  simp +decide only [Except.map, assembleEntry, jLook, lookupStr, ite_true, ite_false,
    Option.getD_some, Option.getD_none]

/-- Witness for C2 (amended) at the concrete 21-character key. -/
theorem C2_redaction_suffix_witness :
    (_process_entry (mkHdrEntry [(strL "x-api-key", .str fullKey)]) 1).map (fun e =>
        (jLook (jLook e (strL "request")) (strL "api_key_suffix"),
         jLook (jLook e (strL "request")) (strL "headers"))) =
      .ok (.str (strL "..." ++ fullKey.drop (fullKey.length - 4)),
           .obj [(strL "x-api-key", .str fullKey)]) :=
  C2_redaction_suffix [(strL "x-api-key", .str fullKey)] fullKey rfl (by decide)

/-- C1 counterexample: a line that IS decodable JSON but has null
timestamps in both request and response makes `_process_entry` raise
(`None - None`), so `parse_trace_file` raises instead of returning the
entry list: decodable lines of unexpected shape are not downgraded to
error entries. -/
theorem C1_counterexample :
    (jsonParse nullTsLine).isOk = true ∧
    parse_trace_file [nullTsLine] =
      .error (strL "TypeError: unsupported operand type for -") := by
  exact ⟨rfl, rfl⟩

/-- C1 (amended): a non-blank line that is NOT decodable JSON produces
exactly one error entry `{index, error: "JSON parse error: " + msg,
raw_line: the line, truncated to its 500-character prefix plus "..." when
longer than 500 characters}`, and processing continues with the remaining
lines, whose entries follow it. Only undecodable lines are downgraded this
way; decodable lines of unexpected shape can raise (see the
counterexample). -/
theorem C1_error_entry (i : ℕ) (line : Str) (rest : List Str) (m : Str)
    (hj : jsonParse line = .error m) (hnb : (pyStrip line).isEmpty = false) :
    goLines i (line :: rest) =
      (goLines (i + 1) rest).map (fun es => errorEntry i m line :: es) := by
  simp only [goLines, hnb, Bool.false_eq_true, if_false, hj]
  cases goLines (i + 1) rest <;> rfl

/-- Witness for C1 (amended) on the undecodable line `nope` as line 1. -/
theorem C1_error_entry_witness :
    goLines 1 [strL "nope"] =
      (goLines 2 []).map
        (fun es => errorEntry 1 (strL "Expecting value") (strL "nope") :: es) :=
  C1_error_entry 1 (strL "nope") [] (strL "Expecting value") rfl rfl

/-- Inserting under one key does not change lookups under another. -/
theorem lookupStr_insertKey_ne (kvs : List (Str × JVal)) (k k' : Str) (v : JVal)
    (h : k' ≠ k) : lookupStr k (insertKey kvs k' v) = lookupStr k kvs := by
  induction kvs with
  | nil => simp [insertKey, lookupStr, h]
  | cons p rest ih =>
    obtain ⟨pk, pv⟩ := p
    by_cases hp : pk = k'
    · subst hp
      simp [insertKey, lookupStr, h]
    · simp only [insertKey, if_neg hp, lookupStr]
      by_cases hq : pk = k
      · simp [hq]
      · simp [hq, ih]

/-- A successful `_process_entry` result carries `index = i`. -/
theorem processEntry_index (entry : JVal) (i : ℕ) (e : JVal)
    (h : _process_entry entry i = .ok e) : jLook e (strL "index") = .num (i : ℚ) := by
  simp only [_process_entry] at h
  obtain ⟨la, _, h⟩ := bindEqOk.mp h
  obtain ⟨hr, _, h⟩ := bindEqOk.mp h
  split at h <;>
    (obtain ⟨rp, _, h⟩ := bindEqOk.mp h
     obtain ⟨hs, _, h⟩ := bindEqOk.mp h
     split at h <;>
       (obtain ⟨sp, _, h⟩ := bindEqOk.mp h
        rw [pureExc] at h
        cases h
        simp +decide only [assembleEntry, jLook, lookupStr, ite_true, Option.getD_some]))

/-- An error entry carries `index = i`. -/
theorem errorEntry_index (i : ℕ) (m line : Str) :
    jLook (errorEntry i m line) (strL "index") = .num (i : ℚ) := by
  simp +decide only [errorEntry, jLook, lookupStr, ite_true, Option.getD_some]

/-- One detector step preserves every key other than `subagent_info`;
in particular the `index` field. -/
theorem detectStep_index (st : JVal × ℕ) (e : JVal) (st' : (JVal × ℕ)) (e' : JVal)
    (h : detectStep st e = .ok (st', e')) :
    jLook e' (strL "index") = jLook e (strL "index") := by
  simp only [detectStep] at h
  obtain ⟨t, _, h⟩ := bindEqOk.mp h
  by_cases hp : pyTruthy t
  · simp only [hp, if_true] at h
    obtain ⟨c, _, h⟩ := bindEqOk.mp h
    rw [pureExc] at h
    cases h
    rfl
  · simp only [hp, if_false, Bool.false_eq_true] at h
    obtain ⟨inf, _, h⟩ := bindEqOk.mp h
    by_cases hi : inf
    · simp only [hi, if_true] at h
      rw [pureExc] at h
      cases h
      rfl
    · simp only [hi, if_false, Bool.false_eq_true] at h
      obtain ⟨c, _, h⟩ := bindEqOk.mp h
      by_cases ha : pyTruthy (if pyTruthy st.1 && decide (0 < st.2) && decide (st.2 + 50 < c)
          then JVal.null else st.1)
      · simp only [ha, if_true] at h
        obtain ⟨e2, he2, h⟩ := bindEqOk.mp h
        rw [pureExc] at h
        cases h
        simp only [pySetItem] at he2
        cases e with
        | obj kvs =>
          cases he2
          simp only [jLook]
          rw [lookupStr_insertKey_ne]
          decide
        | null => cases he2
        | bool b => cases he2
        | num q => cases he2
        | str s => cases he2
        | arr xs => cases he2
      · simp only [ha, if_false, Bool.false_eq_true] at h
        rw [pureExc] at h
        cases h
        rfl

/-- The detector pass preserves the `index` of every entry. -/
theorem detectGo_index (es : List JVal) (st : JVal × ℕ) (es' : List JVal)
    (h : detectGo st es = .ok es') :
    es'.map (fun e => jLook e (strL "index")) = es.map (fun e => jLook e (strL "index")) := by
  induction es generalizing st es' with
  | nil =>
    simp only [detectGo] at h
    cases h
    rfl
  | cons e rest ih =>
    simp only [detectGo] at h
    obtain ⟨p, hp, h⟩ := bindEqOk.mp h
    obtain ⟨st2, e2⟩ := p
    obtain ⟨rest', hrest, h⟩ := bindEqOk.mp h
    rw [pureExc] at h
    cases h
    simp only [List.map_cons]
    rw [detectStep_index st e st2 e2 hp, ih st2 rest' hrest]

/-- The per-line loop emits exactly one entry per non-blank line, carrying
the 1-based line number as its `index`. -/
theorem goLines_index (lines : List Str) (i : ℕ) (es : List JVal)
    (h : goLines i lines = .ok es) :
    es.map (fun e => jLook e (strL "index")) =
      (nonBlankIdx i lines).map (fun n : ℕ => JVal.num (n : ℚ)) := by
  induction lines generalizing i es with
  | nil =>
    simp only [goLines] at h
    cases h
    rfl
  | cons l rest ih =>
    simp only [goLines, nonBlankIdx] at h ⊢
    by_cases hb : (pyStrip l).isEmpty
    · rw [if_pos hb] at h
      rw [if_pos hb]
      exact ih (i + 1) es h
    · rw [if_neg hb] at h
      rw [if_neg hb]
      cases hj : jsonParse l with
      | ok entry =>
        rw [hj] at h
        obtain ⟨parsed, hp, h⟩ := bindEqOk.mp h
        obtain ⟨es', hes, h⟩ := bindEqOk.mp h
        rw [pureExc] at h
        cases h
        simp only [List.map_cons]
        rw [processEntry_index entry i parsed hp, ih (i + 1) es' hes]
      | error m =>
        rw [hj] at h
        obtain ⟨es', hes, h⟩ := bindEqOk.mp h
        rw [pureExc] at h
        cases h
        simp only [List.map_cons]
        rw [errorEntry_index, ih (i + 1) es' hes]

/-- Every emitted line number is at least the starting line number. -/
theorem nonBlankIdx_ge (lines : List Str) : ∀ i x, x ∈ nonBlankIdx i lines → i ≤ x := by
  induction lines with
  | nil => intro i x hx; simp [nonBlankIdx] at hx
  | cons l rest ih =>
    intro i x hx
    simp only [nonBlankIdx] at hx
    by_cases hb : (pyStrip l).isEmpty
    · rw [if_pos hb] at hx
      have := ih (i + 1) x hx
      omega
    · rw [if_neg hb] at hx
      rcases List.mem_cons.mp hx with h | h
      · omega
      · have := ih (i + 1) x h
        omega

/-- The emitted line numbers are strictly increasing. -/
theorem nonBlankIdx_chain (lines : List Str) : ∀ i, List.Chain' (· < ·) (nonBlankIdx i lines) := by
  induction lines with
  | nil => intro i; simp [nonBlankIdx]
  | cons l rest ih =>
    intro i
    simp only [nonBlankIdx]
    by_cases hb : (pyStrip l).isEmpty
    · rw [if_pos hb]; exact ih (i + 1)
    · rw [if_neg hb]
      rw [List.chain'_cons']
      refine ⟨?_, ih (i + 1)⟩
      intro y hy
      have hmem : y ∈ nonBlankIdx (i + 1) rest := by
        cases hnb : nonBlankIdx (i + 1) rest with
        | nil => rw [hnb] at hy; cases hy
        | cons a t =>
          rw [hnb] at hy
          cases hy
          simp [hnb]
      have := nonBlankIdx_ge rest (i + 1) y hmem
      omega

/-- C8: whenever `parse_trace_file` returns a list, the entries' `index`
values are exactly the 1-based line numbers of the non-blank lines, in
source order (blank lines produce no entry), hence strictly increasing,
with one entry — normal or error — per non-blank line. -/
theorem C8_ordering (lines : List Str) (es : List JVal)
    (h : parse_trace_file lines = .ok es) :
    es.map (fun e => jLook e (strL "index")) =
      (nonBlankIdx 1 lines).map (fun n : ℕ => JVal.num (n : ℚ)) ∧
    List.Chain' (· < ·) (nonBlankIdx 1 lines) ∧
    es.length = (nonBlankIdx 1 lines).length := by
  simp only [parse_trace_file] at h
  obtain ⟨es0, h0, hd⟩ := bindEqOk.mp h
  have hidx : es.map (fun e => jLook e (strL "index")) =
      es0.map (fun e => jLook e (strL "index")) :=
    detectGo_index es0 (.null, 0) es hd
  have hgo := goLines_index lines 1 es0 h0
  refine ⟨hidx.trans hgo, nonBlankIdx_chain lines 1, ?_⟩
  have := congrArg List.length (hidx.trans hgo)
  simpa using this

/-- Witness for C8 on a 5-line file with one blank line, one
whitespace-only line and one undecodable line: indexes are [2, 3, 5]. -/
theorem C8_ordering_witness :
    ∃ es, parse_trace_file
        [strL "", strL "\x7b\x7d", strL "nope", strL "   ", strL "\x7b\"a\":1\x7d"] = .ok es ∧
      es.map (fun e => jLook e (strL "index")) =
        [JVal.num 2, JVal.num 3, JVal.num 5] ∧
      List.Chain' (· < ·) (nonBlankIdx 1
        [strL "", strL "\x7b\x7d", strL "nope", strL "   ", strL "\x7b\"a\":1\x7d"]) := by
  have hrun : ∃ es, parse_trace_file
      [strL "", strL "\x7b\x7d", strL "nope", strL "   ", strL "\x7b\"a\":1\x7d"] = .ok es := by
    cases hx : parse_trace_file
        [strL "", strL "\x7b\x7d", strL "nope", strL "   ", strL "\x7b\"a\":1\x7d"] with
    | ok es => exact ⟨es, rfl⟩
    | error m =>
      exfalso
      revert hx
      rw [show parse_trace_file
        [strL "", strL "\x7b\x7d", strL "nope", strL "   ", strL "\x7b\"a\":1\x7d"] =
        .ok (match parse_trace_file
          [strL "", strL "\x7b\x7d", strL "nope", strL "   ", strL "\x7b\"a\":1\x7d"] with
          | .ok es => es | .error _ => []) from rfl]
      intro hx
      cases hx
  obtain ⟨es, hes⟩ := hrun
  obtain ⟨h1, h2, _⟩ := C8_ordering _ es hes
  refine ⟨es, hes, ?_, h2⟩
  rw [h1]
  rfl

set_option maxRecDepth 8000 in
/-- C7 counterexample: a stream whose events are `message_delta` with
usage {1,2} followed by `message_start` with usage {3,4}. The last
usage-carrying event is the `message_start`, so the claim predicts
`tokens_used = \x7binput: 3, output: 4\x7d`; the code only scans `message_delta`
events and yields `\x7binput: 1, output: 2\x7d`. -/
theorem C7_counterexample :
    ((_process_entry c7entry 1).map (fun e =>
        (jLook (jLook e (strL "summary")) (strL "tokens_used"),
         specTokensUsed (match jLook (jLook e (strL "response")) (strL "parsed_events") with
                         | .arr evs => evs
                         | _ => []))) =
      .ok (.obj [(strL "input", .num 1), (strL "output", .num 2)],
           .obj [(strL "input", .num 3), (strL "output", .num 4)])) ∧
    JVal.num 1 ≠ JVal.num 3 := by
  constructor
  · rfl
  · intro h
    have h13 : (1 : ℚ) ≠ 3 := by norm_num
    exact h13 (JVal.num.inj h)

set_option synthInstance.maxHeartbeats 400000 in
/-- One step of the usage loop on a well-formed event either overwrites the
accumulator with that event's `{input, output}` (when it is a
`message_delta` carrying usage) or leaves it unchanged. -/
theorem tokenStep_safe (acc ev : JVal) (h : tokenSafe ev = true) :
    tokenStep acc ev = .ok ((tokenHit ev).getD acc) := by
  cases ev with
  | obj kvs =>
    cases ht : lookupStr (strL "type") kvs with
    | none => simp [tokenStep, tokenHit, pyGetD, ht, pyEqStr, okBind, errBind, pureExc, Except.map]
    | some tv =>
      cases tv with
      | str t =>
        by_cases hmd : t = strL "message_delta"
        · subst hmd
          cases hd : lookupStr (strL "data") kvs with
          | none =>
            simp [tokenStep, tokenHit, pyGetD, pyHasKey, ht, hd, pyEqStr, lookupStr, okBind, errBind, pureExc, Except.map]
          | some dv =>
            cases dv with
            | obj dkvs =>
              cases hu : lookupStr (strL "usage") dkvs with
              | none =>
                simp [tokenStep, tokenHit, pyGetD, pyHasKey, pyItem, ht, hd, hu, pyEqStr, okBind, errBind, pureExc, Except.map]
              | some uv =>
                cases uv with
                | obj ukvs =>
                  simp [tokenStep, tokenHit, pyGetD, pyHasKey, pyItem, ht, hd, hu, pyEqStr, okBind, errBind, pureExc, Except.map]
                | null => exfalso; simp [tokenSafe, ht, hd, hu] at h
                | bool b => exfalso; simp [tokenSafe, ht, hd, hu] at h
                | num q => exfalso; simp [tokenSafe, ht, hd, hu] at h
                | str s => exfalso; simp [tokenSafe, ht, hd, hu] at h
                | arr xs => exfalso; simp [tokenSafe, ht, hd, hu] at h
            | null => exfalso; simp [tokenSafe, ht, hd] at h
            | bool b => exfalso; simp [tokenSafe, ht, hd] at h
            | num q => exfalso; simp [tokenSafe, ht, hd] at h
            | str s => exfalso; simp [tokenSafe, ht, hd] at h
            | arr xs => exfalso; simp [tokenSafe, ht, hd] at h
        · cases hd : lookupStr (strL "data") kvs with
          | none =>
            simp [tokenStep, tokenHit, pyGetD, ht, hd, pyEqStr, hmd, okBind, errBind,
              pureExc, Except.map]
          | some dv =>
            cases dv <;>
              simp [tokenStep, tokenHit, pyGetD, ht, hd, pyEqStr, hmd, okBind, errBind,
                pureExc, Except.map]
      | null => simp [tokenStep, tokenHit, pyGetD, ht, pyEqStr, okBind, errBind, pureExc, Except.map]
      | bool b => simp [tokenStep, tokenHit, pyGetD, ht, pyEqStr, okBind, errBind, pureExc, Except.map]
      | num q => simp [tokenStep, tokenHit, pyGetD, ht, pyEqStr, okBind, errBind, pureExc, Except.map]
      | arr xs => simp [tokenStep, tokenHit, pyGetD, ht, pyEqStr, okBind, errBind, pureExc, Except.map]
      | obj o => simp [tokenStep, tokenHit, pyGetD, ht, pyEqStr, okBind, errBind, pureExc, Except.map]
  | null => simp [tokenSafe] at h
  | bool b => simp [tokenSafe] at h
  | num q => simp [tokenSafe] at h
  | str s => simp [tokenSafe] at h
  | arr xs => simp [tokenSafe] at h

/-- C7 (amended): over well-formed events, the extraction loop used by
`responseParts` (`foldlM tokenStep`) returns the `{input, output}` pair of
the LAST `message_delta` event whose data carries a usage object; events of
any other type never contribute, and with no such event the accumulator
(`None`) survives. -/
theorem C7_last_usage_wins (evs : List JVal) (acc : JVal)
    (h : ∀ ev ∈ evs, tokenSafe ev = true) :
    evs.foldlM tokenStep acc = .ok (((evs.filterMap tokenHit).getLast?).getD acc) := by
  induction evs generalizing acc with
  | nil => rfl
  | cons ev rest ih =>
    have hev : tokenSafe ev = true := h ev (List.mem_cons_self _ _)
    have hrest : ∀ e ∈ rest, tokenSafe e = true := fun e he => h e (List.mem_cons_of_mem _ he)
    rw [List.foldlM_cons, tokenStep_safe acc ev hev, okBind, ih _ hrest]
    cases hh : tokenHit ev with
    | none => simp [List.filterMap_cons, hh]
    | some u =>
      simp only [List.filterMap_cons, hh, Option.getD_some]
      cases hl : (rest.filterMap tokenHit).getLast? with
      | none =>
        have : rest.filterMap tokenHit = [] := by
          cases hx : rest.filterMap tokenHit with
          | nil => rfl
          | cons a t => rw [hx] at hl; simp [List.getLast?] at hl
        simp [this]
      | some w =>
        obtain ⟨a, t, hat⟩ : ∃ a t, rest.filterMap tokenHit = a :: t := by
          cases hx : rest.filterMap tokenHit with
          | nil => rw [hx] at hl; simp at hl
          | cons a t => exact ⟨a, t, rfl⟩
        rw [hat] at hl
        rw [hat, List.getLast?_cons_cons, hl]
        rfl

/-- Witness for C7 (amended): two usage-bearing `message_delta` events with
different counts; the later one wins. -/
theorem C7_last_usage_wins_witness :
    (∀ ev ∈ [JVal.obj [(strL "type", .str (strL "message_delta")), (strL "raw", .str []),
         (strL "data", .obj [(strL "usage",
           .obj [(strL "input_tokens", .num 1), (strL "output_tokens", .num 2)])])],
       JVal.obj [(strL "type", .str (strL "message_delta")), (strL "raw", .str []),
         (strL "data", .obj [(strL "usage",
           .obj [(strL "input_tokens", .num 3), (strL "output_tokens", .num 4)])])]],
      tokenSafe ev = true) ∧
    List.foldlM tokenStep JVal.null
      [JVal.obj [(strL "type", .str (strL "message_delta")), (strL "raw", .str []),
         (strL "data", .obj [(strL "usage",
           .obj [(strL "input_tokens", .num 1), (strL "output_tokens", .num 2)])])],
       JVal.obj [(strL "type", .str (strL "message_delta")), (strL "raw", .str []),
         (strL "data", .obj [(strL "usage",
           .obj [(strL "input_tokens", .num 3), (strL "output_tokens", .num 4)])])]] =
      .ok (.obj [(strL "input", .num 3), (strL "output", .num 4)]) := by
  refine ⟨by decide, ?_⟩
  rw [C7_last_usage_wins _ _ (by decide)]
  rfl

/-! ### Stream reassembly: string-level groundwork -/

theorem hexVal_hexDigit : ∀ n < 16, hexVal (hexDigit n) = some n := by decide

/-- The JSON string escaper and the string-literal parser are inverse. -/
theorem parseStrBody_escBody (s : Str) : ∀ rest : Str,
    parseStrBody (escBody s ++ '"' :: rest) = .ok (s, rest) := by
  induction s with
  | nil =>
    intro rest
    show parseStrBody ('"' :: rest) = .ok ([], rest)
    rw [parseStrBody.eq_def]; simp
  | cons c t ih =>
    intro rest
    have hesc : escBody (c :: t) = escChar c ++ escBody t := by
      simp [escBody, List.map_cons, List.flatten]
    rw [hesc, List.append_assoc]
    by_cases h1 : c = '"'
    · subst h1
      show parseStrBody ('\\' :: '"' :: (escBody t ++ '"' :: rest)) = _
      rw [parseStrBody.eq_def]
      simp +decide [escMap, okBind, ih rest]
    · by_cases h2 : c = '\\'
      · subst h2
        show parseStrBody ('\\' :: '\\' :: (escBody t ++ '"' :: rest)) = _
        rw [parseStrBody.eq_def]
        simp +decide [escMap, okBind, ih rest]
      · by_cases h3 : c = '\n'
        · subst h3
          show parseStrBody ('\\' :: 'n' :: (escBody t ++ '"' :: rest)) = _
          rw [parseStrBody.eq_def]
          simp +decide [escMap, okBind, ih rest]
        · by_cases h4 : c = '\r'
          · subst h4
            show parseStrBody ('\\' :: 'r' :: (escBody t ++ '"' :: rest)) = _
            rw [parseStrBody.eq_def]
            simp +decide [escMap, okBind, ih rest]
          · by_cases h5 : c = '\t'
            · subst h5
              show parseStrBody ('\\' :: 't' :: (escBody t ++ '"' :: rest)) = _
              rw [parseStrBody.eq_def]
              simp +decide [escMap, okBind, ih rest]
            · by_cases h6 : c.toNat < 32
              · have hd1 : hexVal (hexDigit (c.toNat / 16)) = some (c.toNat / 16) :=
                  hexVal_hexDigit _ (by omega)
                have hd2 : hexVal (hexDigit (c.toNat % 16)) = some (c.toNat % 16) :=
                  hexVal_hexDigit _ (by omega)
                have hn : ((0 * 16 + 0) * 16 + c.toNat / 16) * 16 + c.toNat % 16 = c.toNat := by
                  omega
                have h0 : hexVal '0' = some 0 := by decide
                simp only [escChar, if_neg h1, if_neg h2, if_neg h3, if_neg h4, if_neg h5,
                  if_pos h6, List.cons_append, List.nil_append]
                rw [parseStrBody.eq_def]
                simp +decide only [h0, hd1, hd2, okBind, ih rest, ite_true, ite_false]
                rw [hn, Char.ofNat_toNat]
              · have h32 : ¬(c.toNat < 32) := h6
                simp only [escChar, if_neg h1, if_neg h2, if_neg h3, if_neg h4, if_neg h5,
                  if_neg h6, List.cons_append, List.nil_append]
                rw [parseStrBody.eq_def]
                simp only [if_neg h1, if_neg h2, if_neg h32, okBind, ih rest]

theorem nl_not_mem_escChar (c : Char) : '\n' ∉ escChar c := by
  have hhex : ∀ n < 16, hexDigit n ≠ '\n' := by decide
  by_cases h1 : c = '"'
  · subst h1; decide
  · by_cases h2 : c = '\\'
    · subst h2; decide
    · by_cases h3 : c = '\n'
      · subst h3; decide
      · by_cases h4 : c = '\r'
        · subst h4; decide
        · by_cases h5 : c = '\t'
          · subst h5; decide
          · by_cases h6 : c.toNat < 32
            · simp only [escChar, if_neg h1, if_neg h2, if_neg h3, if_neg h4, if_neg h5,
                if_pos h6]
              intro hmem
              simp only [List.mem_cons, List.not_mem_nil, or_false] at hmem
              rcases hmem with h | h | h | h | h | h
              all_goals first
                | exact absurd h.symm (by decide)
                | exact absurd h.symm (hhex _ (by omega))
            · simp only [escChar, if_neg h1, if_neg h2, if_neg h3, if_neg h4, if_neg h5,
                if_neg h6]
              intro hmem
              simp only [List.mem_singleton] at hmem
              exact h3 hmem.symm

theorem nl_not_mem_escBody (s : Str) : '\n' ∉ escBody s := by
  intro hmem
  simp only [escBody, List.mem_flatten, List.mem_map] at hmem
  obtain ⟨l, ⟨c, _, rfl⟩, hl⟩ := hmem
  exact nl_not_mem_escChar c hl

theorem nl_not_mem_encStr (s : Str) : '\n' ∉ encStr s := by
  intro hmem
  simp only [encStr, List.mem_cons, List.mem_append, List.mem_singleton] at hmem
  rcases hmem with h | h | h
  · exact absurd h (by decide)
  · exact nl_not_mem_escBody s h
  · exact absurd h (by decide)

theorem nl_not_mem_natDigitsAux : ∀ (fuel n : ℕ), '\n' ∉ natDigitsAux fuel n := by
  have hd : ∀ m < 10, Char.ofNat ('0'.toNat + m) ≠ '\n' := by decide
  intro fuel
  induction fuel with
  | zero => intro n; simp [natDigitsAux]
  | succ fuel ih =>
    intro n
    by_cases h : n < 10
    · simp only [natDigitsAux, if_pos h, List.mem_singleton]
      intro he; exact hd n h he.symm
    · simp only [natDigitsAux, if_neg h, List.mem_append, List.mem_singleton]
      intro he
      rcases he with he | he
      · exact ih _ he
      · exact hd (n % 10) (Nat.mod_lt _ (by omega)) he.symm

theorem nl_not_mem_natDigits (n : ℕ) : '\n' ∉ natDigits n := nl_not_mem_natDigitsAux _ _

theorem nl_not_mem_sseStartPayload (idx : ℕ) (id name : Str) :
    '\n' ∉ sseStartPayload idx id name := by
  simp +decide [sseStartPayload, List.mem_cons, List.mem_append, List.mem_singleton,
    nl_not_mem_encStr, nl_not_mem_natDigits]

theorem nl_not_mem_sseDeltaPayload (idx : ℕ) (frag : Str) :
    '\n' ∉ sseDeltaPayload idx frag := by
  simp +decide [sseDeltaPayload, List.mem_cons, List.mem_append, List.mem_singleton,
    nl_not_mem_encStr, nl_not_mem_natDigits]

theorem nl_not_mem_sseStopPayload (idx : ℕ) : '\n' ∉ sseStopPayload idx := by
  simp +decide [sseStopPayload, List.mem_cons, List.mem_append, List.mem_singleton,
    nl_not_mem_encStr, nl_not_mem_natDigits]

theorem splitOnChar_ne_nil (c : Char) (s : Str) : splitOnChar c s ≠ [] := by
  induction s with
  | nil => simp [splitOnChar]
  | cons x xs ih =>
    cases h : splitOnChar c xs with
    | nil => exact absurd h ih
    | cons y ys =>
      simp only [splitOnChar, h]
      split <;> simp

theorem splitOnChar_no (c : Char) (s : Str) (h : c ∉ s) : splitOnChar c s = [s] := by
  induction s with
  | nil => rfl
  | cons x xs ih =>
    have hx : ¬(x = c) := fun he => h (by simp [he])
    have hxs : c ∉ xs := fun hm => h (List.mem_cons_of_mem _ hm)
    simp only [splitOnChar, ih hxs, if_neg hx]

theorem splitOnChar_app (c : Char) (s t : Str) (h : c ∉ s) :
    splitOnChar c (s ++ c :: t) = s :: splitOnChar c t := by
  induction s with
  | nil =>
    cases ht : splitOnChar c t with
    | nil => exact absurd ht (splitOnChar_ne_nil c t)
    | cons y ys => simp [splitOnChar, ht]
  | cons x xs ih =>
    have hx : ¬(x = c) := fun he => h (by simp [he])
    have hxs : c ∉ xs := fun hm => h (List.mem_cons_of_mem _ hm)
    simp only [List.cons_append, splitOnChar, List.append_eq, ih hxs, if_neg hx]

theorem intercalate_cons_of_ne_nil (c : Char) (a : Str) (L : List Str) (h : L ≠ []) :
    List.intercalate [c] (a :: L) = a ++ c :: List.intercalate [c] L := by
  cases L with
  | nil => exact absurd rfl h
  | cons b M =>
    simp [List.intercalate, List.intersperse, List.flatten]

theorem splitOnChar_intercalate (c : Char) (L : List Str) (hL : L ≠ [])
    (h : ∀ s ∈ L, c ∉ s) : splitOnChar c (List.intercalate [c] L) = L := by
  induction L with
  | nil => exact absurd rfl hL
  | cons a M ih =>
    cases M with
    | nil =>
      have : List.intercalate [c] [a] = a := by simp [List.intercalate]
      rw [this, splitOnChar_no c a (h a (by simp))]
    | cons b M' =>
      rw [intercalate_cons_of_ne_nil c a _ (by simp),
        splitOnChar_app c a _ (h a (by simp)),
        ih (by simp) (fun s hs => h s (List.mem_cons_of_mem _ hs))]

theorem glCons (a : Char) (l : Str) (h : l ≠ []) : (a :: l).getLast? = l.getLast? := by
  cases l with
  | nil => exact absurd rfl h
  | cons b m => exact List.getLast?_cons_cons

theorem glApp (l₁ l₂ : Str) (h : l₂ ≠ []) : (l₁ ++ l₂).getLast? = l₂.getLast? :=
  List.getLast?_append_of_ne_nil l₁ h

theorem getLast_sseStartPayload (idx : ℕ) (id name : Str) :
    (sseStartPayload idx id name).getLast? = some '\x7d' := by
  simp only [sseStartPayload]
  rw [glCons _ _ (by simp), glApp _ _ (by simp), glCons _ _ (by simp), glApp _ _ (by simp),
    glCons _ _ (by simp), glApp _ _ (by simp), glCons _ _ (by simp), glApp _ _ (by simp),
    glCons _ _ (by simp), glApp _ _ (by simp), glCons _ _ (by simp), glCons _ _ (by simp),
    glApp _ _ (by simp), glCons _ _ (by simp), glApp _ _ (by simp), glCons _ _ (by simp),
    glApp _ _ (by simp), glCons _ _ (by simp), glApp _ _ (by simp), glCons _ _ (by simp),
    glApp _ _ (by simp), glCons _ _ (by simp), glApp _ _ (by simp)]
  rfl

theorem getLast_sseDeltaPayload (idx : ℕ) (frag : Str) :
    (sseDeltaPayload idx frag).getLast? = some '\x7d' := by
  simp only [sseDeltaPayload]
  rw [glCons _ _ (by simp), glApp _ _ (by simp), glCons _ _ (by simp), glApp _ _ (by simp),
    glCons _ _ (by simp), glApp _ _ (by simp), glCons _ _ (by simp), glCons _ _ (by simp),
    glApp _ _ (by simp), glCons _ _ (by simp), glApp _ _ (by simp), glCons _ _ (by simp),
    glApp _ _ (by simp), glCons _ _ (by simp), glApp _ _ (by simp)]
  rfl

theorem getLast_sseStopPayload (idx : ℕ) :
    (sseStopPayload idx).getLast? = some '\x7d' := by
  simp only [sseStopPayload]
  rw [glCons _ _ (by simp), glApp _ _ (by simp), glCons _ _ (by simp), glApp _ _ (by simp)]
  rfl

theorem pyStrip_data (P : Str) (h : P.getLast? = some '\x7d') :
    pyStrip (strL "data: " ++ P) = strL "data: " ++ P := by
  have hP : P ≠ [] := by intro he; rw [he] at h; exact absurd h (by simp)
  show pyStrip ('d' :: 'a' :: 't' :: 'a' :: ':' :: ' ' :: P) = _
  have h1 : List.dropWhile pyWs ('d' :: 'a' :: 't' :: 'a' :: ':' :: ' ' :: P) =
      'd' :: 'a' :: 't' :: 'a' :: ':' :: ' ' :: P := by
    rw [List.dropWhile_cons]; simp +decide [pyWs]
  have hgl : ('d' :: 'a' :: 't' :: 'a' :: ':' :: ' ' :: P).getLast? = some '\x7d' := by
    rw [glCons _ _ (by simp [hP]), glCons _ _ (by simp [hP]), glCons _ _ (by simp [hP]),
      glCons _ _ (by simp [hP]), glCons _ _ (by simp [hP]), glCons _ _ hP, h]
  have hrh : ('d' :: 'a' :: 't' :: 'a' :: ':' :: ' ' :: P).reverse.head? = some '\x7d' := by
    rw [List.head?_reverse]; exact hgl
  obtain ⟨u, hu⟩ : ∃ u, ('d' :: 'a' :: 't' :: 'a' :: ':' :: ' ' :: P).reverse = '\x7d' :: u := by
    cases hr : ('d' :: 'a' :: 't' :: 'a' :: ':' :: ' ' :: P).reverse with
    | nil => rw [hr] at hrh; exact absurd hrh (by simp)
    | cons y v =>
      rw [hr] at hrh
      simp only [List.head?_cons, Option.some.injEq] at hrh
      exact ⟨v, by rw [hrh]⟩
  unfold pyStrip
  rw [h1, hu, List.dropWhile_cons]
  simp only [show pyWs '\x7d' = false from rfl, Bool.false_eq_true, if_false]
  rw [← hu, List.reverse_reverse]
  rfl

theorem pyStrip_startLine (idx : ℕ) (id name : Str) :
    pyStrip (sseStartLine idx id name) = sseStartLine idx id name :=
  pyStrip_data _ (getLast_sseStartPayload idx id name)

theorem pyStrip_deltaLine (idx : ℕ) (frag : Str) :
    pyStrip (sseDeltaLine idx frag) = sseDeltaLine idx frag :=
  pyStrip_data _ (getLast_sseDeltaPayload idx frag)

theorem pyStrip_stopLine (idx : ℕ) :
    pyStrip (sseStopLine idx) = sseStopLine idx :=
  pyStrip_data _ (getLast_sseStopPayload idx)

theorem nl_not_mem_startLine (idx : ℕ) (id name : Str) : '\n' ∉ sseStartLine idx id name := by
  intro hmem
  simp only [sseStartLine, List.mem_append] at hmem
  rcases hmem with h | h
  · exact absurd h (by decide)
  · exact nl_not_mem_sseStartPayload idx id name h

theorem nl_not_mem_deltaLine (idx : ℕ) (frag : Str) : '\n' ∉ sseDeltaLine idx frag := by
  intro hmem
  simp only [sseDeltaLine, List.mem_append] at hmem
  rcases hmem with h | h
  · exact absurd h (by decide)
  · exact nl_not_mem_sseDeltaPayload idx frag h

theorem nl_not_mem_stopLine (idx : ℕ) : '\n' ∉ sseStopLine idx := by
  intro hmem
  simp only [sseStopLine, List.mem_append] at hmem
  rcases hmem with h | h
  · exact absurd h (by decide)
  · exact nl_not_mem_sseStopPayload idx h

theorem splitOnChar_mkToolStream (idx : ℕ) (id name : Str) (frags : List Str) :
    splitOnChar '\n' (mkToolStream idx id name frags) =
      [strL "event: content_block_start", sseStartLine idx id name] ++
      (frags.flatMap fun f => [strL "event: content_block_delta", sseDeltaLine idx f]) ++
      [strL "event: content_block_stop", sseStopLine idx] := by
  apply splitOnChar_intercalate
  · simp
  · intro s hs
    simp only [List.mem_append, List.mem_cons, List.mem_flatMap, List.not_mem_nil,
      or_false] at hs
    rcases hs with ((h | h) | ⟨f, _, h | h⟩) | (h | h)
    · subst h; decide
    · subst h; exact nl_not_mem_startLine idx id name
    · subst h; decide
    · subst h; exact nl_not_mem_deltaLine idx f
    · subst h; decide
    · subst h; exact nl_not_mem_stopLine idx

theorem takeWhile_all_boundary (p : Char → Bool) (t rest : Str)
    (ht : ∀ c ∈ t, p c = true) (hr : ∀ c, rest.head? = some c → p c = false) :
    (t ++ rest).takeWhile p = t ∧ (t ++ rest).dropWhile p = rest := by
  induction t with
  | nil =>
    simp only [List.nil_append]
    cases rest with
    | nil => simp
    | cons r rs =>
      have := hr r rfl
      simp [List.takeWhile_cons, List.dropWhile_cons, this]
  | cons x xs ih =>
    have hx : p x = true := ht x (by simp)
    have ih' := ih (fun c hc => ht c (List.mem_cons_of_mem _ hc))
    simp [List.takeWhile_cons, List.dropWhile_cons, hx, ih'.1, ih'.2]

theorem digitsVal_append_one (ds : Str) (c : Char) :
    digitsVal (ds ++ [c]) = digitsVal ds * 10 + digVal c := by
  simp [digitsVal, List.foldl_append]

theorem natDigitsAux_spec : ∀ (fuel n : ℕ), n < fuel →
    (∀ c ∈ natDigitsAux fuel n, isDig c = true) ∧
    digitsVal (natDigitsAux fuel n) = n ∧
    ∃ c r, natDigitsAux fuel n = c :: r ∧ (1 ≤ n → ¬(c = '0')) := by
  have hdig : ∀ m < 10, isDig (Char.ofNat ('0'.toNat + m)) = true := by decide
  have hval : ∀ m < 10, digVal (Char.ofNat ('0'.toNat + m)) = m := by decide
  have hnz : ∀ m, 1 ≤ m → m < 10 → ¬(Char.ofNat ('0'.toNat + m) = '0') := by decide
  intro fuel
  induction fuel with
  | zero => intro n hn; omega
  | succ fuel ih =>
    intro n hn
    by_cases h : n < 10
    · refine ⟨?_, ?_, Char.ofNat ('0'.toNat + n), [], ?_⟩
      · intro c hc
        simp only [natDigitsAux, if_pos h, List.mem_singleton] at hc
        subst hc; exact hdig n h
      · simp only [natDigitsAux, if_pos h]
        show digitsVal [Char.ofNat ('0'.toNat + n)] = n
        simp only [digitsVal, List.foldl_cons, List.foldl_nil, Nat.zero_mul, Nat.zero_add]
        exact hval n h
      · constructor
        · simp [natDigitsAux, if_pos h]
        · intro h1 he; exact hnz n h1 h he
    · have hrec : n / 10 < fuel := by omega
      obtain ⟨ha, hb, c, r, hc, hz⟩ := ih (n / 10) hrec
      refine ⟨?_, ?_, c, r ++ [Char.ofNat ('0'.toNat + n % 10)], ?_⟩
      · intro d hd
        simp only [natDigitsAux, if_neg h, List.mem_append, List.mem_singleton] at hd
        rcases hd with hd | hd
        · exact ha d hd
        · subst hd; exact hdig _ (Nat.mod_lt _ (by omega))
      · simp only [natDigitsAux, if_neg h]
        rw [digitsVal_append_one, hb, hval _ (Nat.mod_lt _ (by omega))]
        omega
      · constructor
        · simp only [natDigitsAux, if_neg h, hc, List.cons_append]
        · intro _ he; exact hz (by omega) he

theorem natDigits_spec (n : ℕ) :
    (∀ c ∈ natDigits n, isDig c = true) ∧
    digitsVal (natDigits n) = n ∧
    ∃ c r, natDigits n = c :: r ∧ (1 ≤ n → ¬(c = '0')) :=
  natDigitsAux_spec (n + 1) n (by omega)

theorem isDig_not_special (c : Char) (h : isDig c = true) :
    ¬(c = '-') ∧ ¬(c = '\x7b') ∧ ¬(c = '[') ∧ ¬(c = '"') ∧ ¬(c = 'n') ∧ ¬(c = 't') ∧
    ¬(c = 'f') ∧ jsonWs c = false ∧ pyWs c = false := by
  refine ⟨?_, ?_, ?_, ?_, ?_, ?_, ?_, ?_, ?_⟩
  · intro he; subst he; simp [isDig] at h
  · intro he; subst he; simp [isDig] at h
  · intro he; subst he; simp [isDig] at h
  · intro he; subst he; simp [isDig] at h
  · intro he; subst he; simp [isDig] at h
  · intro he; subst he; simp [isDig] at h
  · intro he; subst he; simp [isDig] at h
  · cases hc : jsonWs c with
    | false => rfl
    | true =>
      simp only [jsonWs, Bool.or_eq_true, decide_eq_true_eq] at hc
      rcases hc with ((he | he) | he) | he <;> (subst he; simp [isDig] at h)
  · cases hc : pyWs c with
    | false => rfl
    | true =>
      simp only [pyWs, Bool.or_eq_true, decide_eq_true_eq] at hc
      rcases hc with ((((he | he) | he) | he) | he) | he <;> (subst he; simp [isDig] at h)

theorem numBoundary_facts (c : Char) (r : Str) (hb : numBoundary (c :: r) = true) :
    isDig c = false ∧ ¬(c = '.') ∧ ¬(c = 'e') ∧ ¬(c = 'E') ∧ ¬(c = '-') := by
  simp only [numBoundary, List.head?_cons, Bool.not_eq_true', Bool.or_eq_false_iff,
    decide_eq_false_iff_not] at hb
  exact ⟨hb.1.1.1.1, hb.1.1.1.2, hb.1.1.2, hb.1.2, hb.2⟩

theorem fracPart_boundary (rest : Str) (hb : numBoundary rest = true) :
    fracPart rest = ([], rest) := by
  cases rest with
  | nil => rfl
  | cons c r =>
    obtain ⟨_, hdot, _, _, _⟩ := numBoundary_facts c r hb
    simp [fracPart, hdot]

theorem expPart_boundary (rest : Str) (hb : numBoundary rest = true) :
    expPart rest = ([], false, rest) := by
  cases rest with
  | nil => rfl
  | cons c r =>
    obtain ⟨_, _, he, hE, _⟩ := numBoundary_facts c r hb
    simp [expPart, he, hE]

theorem parseNumAt_natDigits (n : ℕ) (rest : Str) (hb : numBoundary rest = true) :
    parseNumAt (natDigits n ++ rest) = .ok (.num (n : ℚ), rest) := by
  have hrest : ∀ d, rest.head? = some d → isDig d = false := by
    intro d hd
    cases rest with
    | nil => simp at hd
    | cons c r =>
      simp only [List.head?_cons, Option.some.injEq] at hd
      subst hd
      exact (numBoundary_facts _ _ hb).1
  by_cases h0 : n = 0
  · subst h0
    show parseNumAt ('0' :: rest) = .ok (.num ((0 : ℕ) : ℚ), rest)
    have hdv : digVal '0' = 0 := rfl
    simp +decide [parseNumAt, fracPart_boundary rest hb, expPart_boundary rest hb,
      digitsVal, hdv]
  · obtain ⟨hdigs, hval, c, ds, hnd, hz⟩ := natDigits_spec n
    have hc : isDig c = true := hdigs c (by rw [hnd]; simp)
    have hds : ∀ d ∈ ds, isDig d = true := fun d hd =>
      hdigs d (by rw [hnd]; exact List.mem_cons_of_mem _ hd)
    obtain ⟨hdash, _, _, _, _, _, _, _, _⟩ := isDig_not_special c hc
    have hz' : ¬(c = '0') := hz (by omega)
    have htw := takeWhile_all_boundary isDig ds rest hds hrest
    have hdv : digitsVal (c :: ds) = n := by rw [← hnd]; exact hval
    rw [hnd, List.cons_append]
    simp [parseNumAt, hdash, hc, hz', htw.1, htw.2,
      fracPart_boundary rest hb, expPart_boundary rest hb, hdv]

theorem PV_str (f : ℕ) (s rest : Str) :
    parseVal (f + 1) (encStr s ++ rest) = .ok (.str s, rest) := by
  have he : encStr s ++ rest = '"' :: (escBody s ++ '"' :: rest) := by
    simp [encStr, List.cons_append, List.append_assoc]
  rw [he, parseVal.eq_def]
  simp +decide [skipWs, List.dropWhile_cons, parseStrBody_escBody s rest, okBind]

theorem PV_obj (f : ℕ) (r : Str) :
    parseVal (f + 1) ('\x7b' :: r) = parseObjBody f (skipWs r) [] := by
  rw [parseVal.eq_def]
  simp +decide [skipWs, List.dropWhile_cons]

theorem PV_num (f n : ℕ) (rest : Str) (hb : numBoundary rest = true) :
    parseVal (f + 1) (natDigits n ++ rest) = .ok (.num (n : ℚ), rest) := by
  obtain ⟨hdigs, hval, c, ds, hnd, hz⟩ := natDigits_spec n
  have hc : isDig c = true := hdigs c (by rw [hnd]; simp)
  obtain ⟨hdash, hbr, hlb, hq, hn, ht, hf, hjw, _⟩ := isDig_not_special c hc
  rw [hnd, List.cons_append, parseVal.eq_def]
  have hsw : skipWs (c :: (ds ++ rest)) = c :: (ds ++ rest) := by
    simp [skipWs, List.dropWhile_cons, hjw]
  simp only [hsw, hbr, hlb, hq, hn, ht, hf, hc, if_neg hbr, if_neg hlb, if_neg hq,
    if_neg hn, if_neg ht, if_neg hf, Bool.or_true, if_true, ite_true, ite_false]
  rw [← List.cons_append, ← hnd]
  exact parseNumAt_natDigits n rest hb

theorem POB_mem_more (f : ℕ) (k rest rest2 : Str) (acc : List (Str × JVal)) (v : JVal)
    (hv : parseVal f rest = .ok (v, ',' :: rest2)) :
    parseObjBody (f + 1) (encStr k ++ ':' :: rest) acc =
      parseObjBody f (skipWs rest2) (insertKey acc k v) := by
  have he : encStr k ++ ':' :: rest = '"' :: (escBody k ++ '"' :: (':' :: rest)) := by
    simp [encStr, List.cons_append, List.append_assoc]
  rw [he, parseObjBody.eq_def]
  simp +decide [parseStrBody_escBody k (':' :: rest), okBind, skipWs,
    List.dropWhile_cons, hv]

theorem POB_mem_last (f : ℕ) (k rest rest2 : Str) (acc : List (Str × JVal)) (v : JVal)
    (hv : parseVal f rest = .ok (v, '\x7d' :: rest2)) :
    parseObjBody (f + 1) (encStr k ++ ':' :: rest) acc =
      .ok (.obj (insertKey acc k v), rest2) := by
  have he : encStr k ++ ':' :: rest = '"' :: (escBody k ++ '"' :: (':' :: rest)) := by
    simp [encStr, List.cons_append, List.append_assoc]
  rw [he, parseObjBody.eq_def]
  simp +decide [parseStrBody_escBody k (':' :: rest), okBind, skipWs,
    List.dropWhile_cons, hv]

theorem skipWs_encStr (k r : Str) : skipWs (encStr k ++ r) = encStr k ++ r := by
  simp +decide [encStr, skipWs, List.cons_append, List.dropWhile_cons]

theorem parseVal_stopPayload (f idx : ℕ) :
    parseVal (f + 3) (sseStopPayload idx) =
      .ok (.obj [(strL "index", .num (idx : ℚ))], []) := by
  have h1 : parseVal (f + 1) (natDigits idx ++ '\x7d' :: []) =
      .ok (.num (idx : ℚ), '\x7d' :: []) := PV_num f idx _ (by decide)
  have h2 : parseObjBody (f + 2) (encStr (strL "index") ++ ':' :: (natDigits idx ++ ['\x7d'])) [] =
      .ok (.obj (insertKey [] (strL "index") (.num (idx : ℚ))), []) :=
    POB_mem_last (f + 1) _ _ _ _ _ h1
  show parseVal ((f + 2) + 1) ('\x7b' :: (encStr (strL "index") ++ ':' :: (natDigits idx ++ ['\x7d']))) = _
  rw [PV_obj (f + 2), skipWs_encStr, h2]
  simp [insertKey]

theorem numBoundary_comma (r : Str) : numBoundary (',' :: r) = true := by
  simp +decide [numBoundary]

theorem parseVal_stopPayloadN (f idx : ℕ) :
    parseVal (f + 3) (sseStopPayload idx) =
      .ok (.obj [(strL "index", .num (idx : ℚ))], []) := parseVal_stopPayload f idx

theorem jsonParse_stopPayload (idx : ℕ) :
    jsonParse (sseStopPayload idx) = .ok (.obj [(strL "index", .num (idx : ℚ))]) := by
  have hL : 3 ≤ 2 * (sseStopPayload idx).length + 2 := by
    simp [sseStopPayload, encStr, List.length_append]
    omega
  obtain ⟨g, hg⟩ : ∃ g, 2 * (sseStopPayload idx).length + 2 = g + 3 :=
    ⟨2 * (sseStopPayload idx).length + 2 - 3, (Nat.sub_add_cancel hL).symm⟩
  unfold jsonParse
  rw [hg, parseVal_stopPayload]
  rfl

theorem parseVal_deltaPayload (f idx : ℕ) (frag : Str) :
    parseVal (f + 7) (sseDeltaPayload idx frag) =
      .ok (.obj [(strL "index", .num (idx : ℚ)),
        (strL "delta", .obj [(strL "type", .str (strL "input_json_delta")),
          (strL "partial_json", .str frag)])], []) := by
  simp only [sseDeltaPayload]
  rw [show f + 7 = (f + 6) + 1 from rfl, PV_obj, skipWs_encStr]
  rw [show f + 6 = (f + 5) + 1 from rfl,
    POB_mem_more _ _ _ _ _ _ (PV_num (f + 4) idx _ (numBoundary_comma _)), skipWs_encStr]
  have hin : parseVal (f + 4) ('\x7b' :: (encStr (strL "type") ++ ':' ::
      (encStr (strL "input_json_delta") ++ ',' :: (encStr (strL "partial_json") ++ ':' ::
        (encStr frag ++ '\x7d' :: ['\x7d']))))) =
      .ok (.obj [(strL "type", .str (strL "input_json_delta")),
        (strL "partial_json", .str frag)], ['\x7d']) := by
    rw [show f + 4 = (f + 3) + 1 from rfl, PV_obj, skipWs_encStr]
    rw [show f + 3 = (f + 2) + 1 from rfl,
      POB_mem_more _ _ _ _ _ _ (PV_str (f + 1) (strL "input_json_delta") _), skipWs_encStr]
    rw [show f + 2 = (f + 1) + 1 from rfl,
      POB_mem_last _ _ _ _ _ _ (PV_str f frag _)]
    simp +decide [insertKey]
  rw [show f + 5 = (f + 4) + 1 from rfl, POB_mem_last _ _ _ _ _ _ hin]
  simp +decide [insertKey]

theorem jsonParse_deltaPayload (idx : ℕ) (frag : Str) :
    jsonParse (sseDeltaPayload idx frag) =
      .ok (.obj [(strL "index", .num (idx : ℚ)),
        (strL "delta", .obj [(strL "type", .str (strL "input_json_delta")),
          (strL "partial_json", .str frag)])]) := by
  have hL : 7 ≤ 2 * (sseDeltaPayload idx frag).length + 2 := by
    simp [sseDeltaPayload, encStr, List.length_append]
    omega
  obtain ⟨g, hg⟩ : ∃ g, 2 * (sseDeltaPayload idx frag).length + 2 = g + 7 :=
    ⟨2 * (sseDeltaPayload idx frag).length + 2 - 7, (Nat.sub_add_cancel hL).symm⟩
  unfold jsonParse
  rw [hg, parseVal_deltaPayload]
  rfl

theorem parseVal_startPayload (f idx : ℕ) (id name : Str) :
    parseVal (f + 9) (sseStartPayload idx id name) =
      .ok (startEvData idx id name [], []) := by
  simp only [sseStartPayload]
  rw [show f + 9 = (f + 8) + 1 from rfl, PV_obj, skipWs_encStr]
  rw [show f + 8 = (f + 7) + 1 from rfl,
    POB_mem_more _ _ _ _ _ _ (PV_str (f + 6) (strL "content_block_start") _), skipWs_encStr]
  rw [show f + 7 = (f + 6) + 1 from rfl,
    POB_mem_more _ _ _ _ _ _ (PV_num (f + 5) idx _ (numBoundary_comma _)), skipWs_encStr]
  have hin : parseVal (f + 5) ('\x7b' :: (encStr (strL "type") ++ ':' ::
      (encStr (strL "tool_use") ++ ',' :: (encStr (strL "id") ++ ':' ::
        (encStr id ++ ',' :: (encStr (strL "name") ++ ':' ::
          (encStr name ++ '\x7d' :: ['\x7d']))))))) =
      .ok (.obj [(strL "type", .str (strL "tool_use")), (strL "id", .str id),
        (strL "name", .str name)], ['\x7d']) := by
    rw [show f + 5 = (f + 4) + 1 from rfl, PV_obj, skipWs_encStr]
    rw [show f + 4 = (f + 3) + 1 from rfl,
      POB_mem_more _ _ _ _ _ _ (PV_str (f + 2) (strL "tool_use") _), skipWs_encStr]
    rw [show f + 3 = (f + 2) + 1 from rfl,
      POB_mem_more _ _ _ _ _ _ (PV_str (f + 1) id _), skipWs_encStr]
    rw [show f + 2 = (f + 1) + 1 from rfl,
      POB_mem_last _ _ _ _ _ _ (PV_str f name _)]
    simp +decide [insertKey]
  rw [show f + 6 = (f + 5) + 1 from rfl, POB_mem_last _ _ _ _ _ _ hin]
  simp +decide [insertKey, startEvData]

theorem jsonParse_startPayload (idx : ℕ) (id name : Str) :
    jsonParse (sseStartPayload idx id name) = .ok (startEvData idx id name []) := by
  have hL : 9 ≤ 2 * (sseStartPayload idx id name).length + 2 := by
    simp [sseStartPayload, encStr, List.length_append]
    omega
  obtain ⟨g, hg⟩ : ∃ g, 2 * (sseStartPayload idx id name).length + 2 = g + 9 :=
    ⟨2 * (sseStartPayload idx id name).length + 2 - 9, (Nat.sub_add_cancel hL).symm⟩
  unfold jsonParse
  rw [hg, parseVal_startPayload]
  rfl

theorem sseLine_event_start (st : SSEState) :
    sseLine st (strL "event: content_block_start") =
      .ok { st with
        events := st.events ++ [.obj [(strL "type", .str (strL "content_block_start")),
          (strL "raw", .str (strL "event: content_block_start")), (strL "data", .null)]],
        cur := some st.events.length } := by
  have hstrip : pyStrip (strL "event: content_block_start") =
      strL "event: content_block_start" := rfl
  have hdrop : (strL "event: content_block_start").drop 7 = strL "content_block_start" := rfl
  simp +decide [sseLine, hstrip, hdrop, pureExc]

theorem sseLine_event_delta (st : SSEState) :
    sseLine st (strL "event: content_block_delta") =
      .ok { st with
        events := st.events ++ [.obj [(strL "type", .str (strL "content_block_delta")),
          (strL "raw", .str (strL "event: content_block_delta")), (strL "data", .null)]],
        cur := some st.events.length } := by
  have hstrip : pyStrip (strL "event: content_block_delta") =
      strL "event: content_block_delta" := rfl
  have hdrop : (strL "event: content_block_delta").drop 7 = strL "content_block_delta" := rfl
  simp +decide [sseLine, hstrip, hdrop, pureExc]

theorem sseLine_event_stop (st : SSEState) :
    sseLine st (strL "event: content_block_stop") =
      .ok { st with
        events := st.events ++ [.obj [(strL "type", .str (strL "content_block_stop")),
          (strL "raw", .str (strL "event: content_block_stop")), (strL "data", .null)]],
        cur := some st.events.length } := by
  have hstrip : pyStrip (strL "event: content_block_stop") =
      strL "event: content_block_stop" := rfl
  have hdrop : (strL "event: content_block_stop").drop 7 = strL "content_block_stop" := rfl
  simp +decide [sseLine, hstrip, hdrop, pureExc]

set_option synthInstance.maxHeartbeats 1000000 in
theorem sseLine_start_data (idx : ℕ) (id name : Str) :
    sseLine ⟨[.obj [(strL "type", .str (strL "content_block_start")),
        (strL "raw", .str (strL "event: content_block_start")), (strL "data", .null)]],
      some 0, [], []⟩ (sseStartLine idx id name) =
      .ok ⟨[expStartEvent idx id name []], some 0,
        [(.num (idx : ℚ), [])], [(.num (idx : ℚ), 0)]⟩ := by
  have hdrop : (sseStartLine idx id name).drop 6 = sseStartPayload idx id name := rfl
  have hne : (sseStartPayload idx id name).isEmpty = false := rfl
  have hdone : ¬(sseStartPayload idx id name = strL "[DONE]") := by
    intro h
    have h2 := congrArg List.head? h
    rw [show List.head? (sseStartPayload idx id name) = some '\x7b' from rfl] at h2
    exact absurd h2 (by decide)
  have hq2 : strL "data: " <+: sseStartLine idx id name :=
    List.isPrefixOf_iff_prefix.mp (by rfl)
  have hq1 : ¬(strL "event: " <+: sseStartLine idx id name) := by
    intro h
    have hb := List.isPrefixOf_iff_prefix.mpr h
    rw [show (strL "event: ").isPrefixOf (sseStartLine idx id name) = false from rfl] at hb
    exact Bool.false_ne_true hb
  simp +decide [sseLine, pyStrip_startLine, hdrop, hne, hdone, hq1, hq2,
    jsonParse_startPayload,
    sseHandleStart, startEvData, expStartEvent, pyGetD, pyItem, pySetItem, pyHasKey,
    asStr, lookupStr, insertKey, insertKeyJ, pyEqStr, isNull, hashableJ, okBind, errBind,
    pureExc]

theorem getD_snoc (l : List JVal) (x d : JVal) : (l ++ [x]).getD l.length d = x := by
  simp [List.getD, List.getElem?_concat_length]

theorem set_snoc (l : List JVal) (x y : JVal) : (l ++ [x]).set l.length y = l ++ [y] := by
  induction l with
  | nil => rfl
  | cons a t ih => simp [List.cons_append, List.set, ih]

theorem pyKeyEq_num_self (q : ℚ) : pyKeyEq (.num q) (.num q) = true := by
  simp [pyKeyEq, numView]

set_option synthInstance.maxHeartbeats 1000000 in
theorem sseLine_delta_data (idx : ℕ) (frag : Str) (evs : List JVal) (acc : Str) :
    sseLine ⟨evs ++ [.obj [(strL "type", .str (strL "content_block_delta")),
        (strL "raw", .str (strL "event: content_block_delta")), (strL "data", .null)]],
      some evs.length, [(.num (idx : ℚ), acc)], [(.num (idx : ℚ), 0)]⟩
      (sseDeltaLine idx frag) =
      .ok ⟨evs ++ [expDeltaEvent idx frag], some evs.length,
        [(.num (idx : ℚ), acc ++ frag)], [(.num (idx : ℚ), 0)]⟩ := by
  have hdrop : (sseDeltaLine idx frag).drop 6 = sseDeltaPayload idx frag := rfl
  have hne : (sseDeltaPayload idx frag).isEmpty = false := rfl
  have hdone : ¬(sseDeltaPayload idx frag = strL "[DONE]") := by
    intro h
    have h2 := congrArg List.head? h
    rw [show List.head? (sseDeltaPayload idx frag) = some '\x7b' from rfl] at h2
    exact absurd h2 (by decide)
  have hq2 : strL "data: " <+: sseDeltaLine idx frag :=
    List.isPrefixOf_iff_prefix.mp (by rfl)
  have hq1 : ¬(strL "event: " <+: sseDeltaLine idx frag) := by
    intro h
    have hb := List.isPrefixOf_iff_prefix.mpr h
    rw [show (strL "event: ").isPrefixOf (sseDeltaLine idx frag) = false from rfl] at hb
    exact Bool.false_ne_true hb
  simp +decide [sseLine, pyStrip_deltaLine, hdrop, hne, hdone, hq1, hq2,
    jsonParse_deltaPayload, getD_snoc, set_snoc, pyKeyEq_num_self,
    sseHandleStart, sseHandleDelta, expDeltaEvent, pyGetD, pyItem, pySetItem, pyHasKey,
    asStr, lookupStr, lookupKeyJ, insertKey, insertKeyJ, pyEqStr, isNull, hashableJ,
    okBind, errBind, pureExc]

set_option synthInstance.maxHeartbeats 1000000 in
theorem sseLine_stop_data (idx : ℕ) (evs0 : List JVal) (blocks : List (JVal × Str))
    (refs : List (JVal × ℕ)) :
    sseLine ⟨evs0 ++ [.obj [(strL "type", .str (strL "content_block_stop")),
        (strL "raw", .str (strL "event: content_block_stop")), (strL "data", .null)]],
      some evs0.length, blocks, refs⟩ (sseStopLine idx) =
      sseHandleStop ⟨evs0 ++ [expStopEvent idx], some evs0.length, blocks, refs⟩
        (.obj [(strL "index", .num (idx : ℚ))]) := by
  have hdrop : (sseStopLine idx).drop 6 = sseStopPayload idx := rfl
  have hne : (sseStopPayload idx).isEmpty = false := rfl
  have hdone : ¬(sseStopPayload idx = strL "[DONE]") := by
    intro h
    have h2 := congrArg List.head? h
    rw [show List.head? (sseStopPayload idx) = some '\x7b' from rfl] at h2
    exact absurd h2 (by decide)
  have hq2 : strL "data: " <+: sseStopLine idx :=
    List.isPrefixOf_iff_prefix.mp (by rfl)
  have hq1 : ¬(strL "event: " <+: sseStopLine idx) := by
    intro h
    have hb := List.isPrefixOf_iff_prefix.mpr h
    rw [show (strL "event: ").isPrefixOf (sseStopLine idx) = false from rfl] at hb
    exact Bool.false_ne_true hb
  have hgd := getD_snoc evs0 (.obj [(strL "type", .str (strL "content_block_stop")),
    (strL "raw", .str (strL "event: content_block_stop")), (strL "data", .null)]) .null
  have hst := set_snoc evs0 (.obj [(strL "type", .str (strL "content_block_stop")),
    (strL "raw", .str (strL "event: content_block_stop")), (strL "data", .null)])
    (expStopEvent idx)
  simp +decide [sseLine, pyStrip_stopLine, hdrop, hne, hdone, hq1, hq2,
    jsonParse_stopPayload, hgd, hst, expStopEvent, pyGetD, pyItem, pySetItem, pyHasKey,
    asStr, lookupStr, insertKey, pyEqStr, isNull, okBind, errBind, pureExc]

set_option synthInstance.maxHeartbeats 1000000 in
theorem sseHandleStop_ok (idx : ℕ) (id name : Str) (mid : List JVal) (acc : Str)
    (v : JVal) (c : Option ℕ) (hne : acc.isEmpty = false) (hv : jsonParse acc = .ok v) :
    sseHandleStop ⟨expStartEvent idx id name [] :: mid, c,
        [(.num (idx : ℚ), acc)], [(.num (idx : ℚ), 0)]⟩
      (.obj [(strL "index", .num (idx : ℚ))]) =
      .ok ⟨expStartEvent idx id name [(strL "input", v)] :: mid, c, [], []⟩ := by
  simp +decide [sseHandleStop, sseWriteInput, expStartEvent, startEvData, hne, hv,
    lookupKeyJ, removeKeyJ, pyKeyEq_num_self, pyGetD, pyItem, pySetItem, pyHasKey,
    asStr, lookupStr, insertKey, pyEqStr, isNull, hashableJ, okBind, errBind, pureExc]

set_option synthInstance.maxHeartbeats 1000000 in
theorem sseHandleStop_err (idx : ℕ) (id name : Str) (mid : List JVal) (acc : Str)
    (e : Str) (c : Option ℕ) (hne : acc.isEmpty = false) (hv : jsonParse acc = .error e) :
    sseHandleStop ⟨expStartEvent idx id name [] :: mid, c,
        [(.num (idx : ℚ), acc)], [(.num (idx : ℚ), 0)]⟩
      (.obj [(strL "index", .num (idx : ℚ))]) =
      .ok ⟨expStartEvent idx id name
        [(strL "input_raw", .str acc), (strL "input_parse_error", .str e)] :: mid,
        c, [], []⟩ := by
  simp +decide [sseHandleStop, sseWriteInput, expStartEvent, startEvData, hne, hv,
    lookupKeyJ, removeKeyJ, pyKeyEq_num_self, pyGetD, pyItem, pySetItem, pyHasKey,
    asStr, lookupStr, insertKey, pyEqStr, isNull, hashableJ, okBind, errBind, pureExc]

theorem sseRun_cons (st : SSEState) (l : Str) (ls : List Str) :
    sseRun st (l :: ls) = sseLine st l >>= fun st2 => sseRun st2 ls := rfl

theorem sseRun_deltas (idx : ℕ) (fs : List Str) :
    ∀ (evs : List JVal) (c : Option ℕ) (acc : Str) (rest : List Str),
    ∃ c2, sseRun ⟨evs, c, [(.num (idx : ℚ), acc)], [(.num (idx : ℚ), 0)]⟩
      ((fs.flatMap fun f => [strL "event: content_block_delta", sseDeltaLine idx f]) ++ rest) =
    sseRun ⟨evs ++ fs.map (expDeltaEvent idx), c2,
      [(.num (idx : ℚ), acc ++ fs.flatten)], [(.num (idx : ℚ), 0)]⟩ rest := by
  induction fs with
  | nil =>
    intro evs c acc rest
    exact ⟨c, by simp⟩
  | cons f fs ih =>
    intro evs c acc rest
    obtain ⟨c2, hc2⟩ := ih (evs ++ [expDeltaEvent idx f]) (some evs.length) (acc ++ f) rest
    refine ⟨c2, ?_⟩
    simp only [List.flatMap_cons, List.cons_append, List.append_assoc]
    rw [sseRun_cons, sseLine_event_delta, okBind, sseRun_cons, sseLine_delta_data, okBind]
    dsimp only
    rw [List.nil_append, hc2]
    simp [List.append_assoc]

theorem sseRun_toolStream_ok (idx : ℕ) (id name : Str) (frags : List Str) (v : JVal)
    (hne : frags.flatten.isEmpty = false) (hv : jsonParse frags.flatten = .ok v) :
    sseRun initSSE (splitOnChar '\n' (mkToolStream idx id name frags)) =
      .ok ⟨expToolEvents idx id name frags [(strL "input", v)],
        some (frags.length + 1), [], []⟩ := by
  rw [splitOnChar_mkToolStream]
  simp only [List.cons_append, List.nil_append, List.append_assoc]
  rw [sseRun_cons, sseLine_event_start, okBind]
  dsimp only [initSSE]
  rw [sseRun_cons]
  simp only [List.nil_append, List.length_nil]
  rw [sseLine_start_data, okBind]
  obtain ⟨c2, hc2⟩ := sseRun_deltas idx frags [expStartEvent idx id name []] (some 0) []
    [strL "event: content_block_stop", sseStopLine idx]
  rw [List.nil_append] at hc2
  rw [hc2]
  rw [sseRun_cons, sseLine_event_stop, okBind]
  rw [sseRun_cons]
  dsimp only
  rw [sseLine_stop_data]
  have hstop := sseHandleStop_ok idx id name
    (List.map (expDeltaEvent idx) frags ++ [expStopEvent idx]) frags.flatten v
    (some (expStartEvent idx id name [] :: List.map (expDeltaEvent idx) frags).length)
    hne hv
  simp only [List.singleton_append, List.cons_append, List.nil_append]
  rw [hstop, okBind]
  simp [sseRun, expToolEvents]

theorem sseRun_toolStream_err (idx : ℕ) (id name : Str) (frags : List Str) (e : Str)
    (hne : frags.flatten.isEmpty = false) (hv : jsonParse frags.flatten = .error e) :
    sseRun initSSE (splitOnChar '\n' (mkToolStream idx id name frags)) =
      .ok ⟨expToolEvents idx id name frags
          [(strL "input_raw", .str frags.flatten), (strL "input_parse_error", .str e)],
        some (frags.length + 1), [], []⟩ := by
  rw [splitOnChar_mkToolStream]
  simp only [List.cons_append, List.nil_append, List.append_assoc]
  rw [sseRun_cons, sseLine_event_start, okBind]
  dsimp only [initSSE]
  rw [sseRun_cons]
  simp only [List.nil_append, List.length_nil]
  rw [sseLine_start_data, okBind]
  obtain ⟨c2, hc2⟩ := sseRun_deltas idx frags [expStartEvent idx id name []] (some 0) []
    [strL "event: content_block_stop", sseStopLine idx]
  rw [List.nil_append] at hc2
  rw [hc2]
  rw [sseRun_cons, sseLine_event_stop, okBind]
  rw [sseRun_cons]
  dsimp only
  rw [sseLine_stop_data]
  have hstop := sseHandleStop_err idx id name
    (List.map (expDeltaEvent idx) frags ++ [expStopEvent idx]) frags.flatten e
    (some (expStartEvent idx id name [] :: List.map (expDeltaEvent idx) frags).length)
    hne hv
  simp only [List.singleton_append, List.cons_append, List.nil_append]
  rw [hstop, okBind]
  simp [sseRun, expToolEvents]

theorem mkToolStream_ne_empty (idx : ℕ) (id name : Str) (frags : List Str) :
    (mkToolStream idx id name frags).isEmpty = false := by
  unfold mkToolStream
  simp only [List.cons_append, List.nil_append]
  rw [intercalate_cons_of_ne_nil _ _ _ (by simp)]
  rfl

theorem parse_sse_toolStream_ok (idx : ℕ) (id name : Str) (frags : List Str) (v : JVal)
    (hne : frags.flatten.isEmpty = false) (hv : jsonParse frags.flatten = .ok v) :
    _parse_sse_events_detailed (.str (mkToolStream idx id name frags)) =
      .ok (expToolEvents idx id name frags [(strL "input", v)]) := by
  unfold _parse_sse_events_detailed
  simp only [pyTruthy, mkToolStream_ne_empty, Bool.not_false, Bool.not_true, ite_false,
    Bool.false_eq_true, if_false]
  rw [show asStr (.str (mkToolStream idx id name frags)) =
    .ok (mkToolStream idx id name frags) from rfl, okBind,
    sseRun_toolStream_ok idx id name frags v hne hv, okBind]
  rfl

theorem parse_sse_toolStream_err (idx : ℕ) (id name : Str) (frags : List Str) (e : Str)
    (hne : frags.flatten.isEmpty = false) (hv : jsonParse frags.flatten = .error e) :
    _parse_sse_events_detailed (.str (mkToolStream idx id name frags)) =
      .ok (expToolEvents idx id name frags
        [(strL "input_raw", .str frags.flatten), (strL "input_parse_error", .str e)]) := by
  unfold _parse_sse_events_detailed
  simp only [pyTruthy, mkToolStream_ne_empty, Bool.not_false, Bool.not_true, ite_false,
    Bool.false_eq_true, if_false]
  rw [show asStr (.str (mkToolStream idx id name frags)) =
    .ok (mkToolStream idx id name frags) from rfl, okBind,
    sseRun_toolStream_err idx id name frags e hne hv, okBind]
  rfl

set_option synthInstance.maxHeartbeats 1000000 in
theorem countStarts_expToolEvents (idx : ℕ) (id name : Str) (frags : List Str)
    (extra : List (Str × JVal)) :
    countStarts (expToolEvents idx id name frags extra) = 1 := by
  have hdelta : ∀ f, pyEqStr (jLook (expDeltaEvent idx f) (strL "type"))
      (strL "content_block_start") = false := fun f => by
    simp +decide [expDeltaEvent, jLook, lookupStr, pyEqStr]
  unfold expToolEvents countStarts
  rw [List.filter_cons, List.filter_append]
  simp +decide [jLook, expStartEvent, expStopEvent, lookupStr, pyEqStr,
    List.filter_map, hdelta]
  intro a _
  exact hdelta a

theorem inputOf_expStart (idx : ℕ) (id name : Str) (v : JVal) :
    inputOf (expStartEvent idx id name [(strL "input", v)]) = v := by
  simp +decide [inputOf, expStartEvent, startEvData, jLook, lookupStr]

/-- C3: for a `body_raw` stream whose `input_json_delta` fragments for one
`tool_use` content block concatenate to text that decodes as JSON, the parsed
event list contains exactly one `content_block_start` event, its content
block's `input` equals the decoded object, and the start event (hence its
reconstructed `input`) is identical for every splitting of the same fragment
text across delta events. -/
theorem C3_stream_reassembly (idx : ℕ) (id name : Str) (frags frags2 : List Str)
    (v : JVal)
    (hne : frags.flatten.isEmpty = false)
    (hv : jsonParse frags.flatten = .ok v)
    (hsame : frags2.flatten = frags.flatten) :
    _parse_sse_events_detailed (.str (mkToolStream idx id name frags)) =
      .ok (expToolEvents idx id name frags [(strL "input", v)]) ∧
    countStarts (expToolEvents idx id name frags [(strL "input", v)]) = 1 ∧
    inputOf ((expToolEvents idx id name frags [(strL "input", v)]).getD 0 .null) = v ∧
    ∃ evs2, _parse_sse_events_detailed (.str (mkToolStream idx id name frags2)) = .ok evs2 ∧
      evs2.getD 0 .null = (expToolEvents idx id name frags [(strL "input", v)]).getD 0 .null := by
  refine ⟨parse_sse_toolStream_ok idx id name frags v hne hv,
    countStarts_expToolEvents idx id name frags _,
    ?_,
    expToolEvents idx id name frags2 [(strL "input", v)],
    parse_sse_toolStream_ok idx id name frags2 v (by rw [hsame]; exact hne)
      (by rw [hsame]; exact hv), ?_⟩
  · show inputOf (expStartEvent idx id name [(strL "input", v)]) = v
    exact inputOf_expStart idx id name v
  · show (expStartEvent idx id name [(strL "input", v)]) = _
    rfl

theorem C3_stream_reassembly_witness :
    ([strL "\x7b\"a\":", strL "1\x7d"] : List Str).flatten.isEmpty = false ∧
    jsonParse ([strL "\x7b\"a\":", strL "1\x7d"] : List Str).flatten =
      .ok (.obj [(strL "a", .num ((1 : ℕ) : ℚ))]) ∧
    ([strL "\x7b\"a\":1\x7d"] : List Str).flatten =
      ([strL "\x7b\"a\":", strL "1\x7d"] : List Str).flatten ∧
    (_parse_sse_events_detailed (.str (mkToolStream 0 (strL "i") (strL "n")
        [strL "\x7b\"a\":", strL "1\x7d"])) =
      .ok (expToolEvents 0 (strL "i") (strL "n") [strL "\x7b\"a\":", strL "1\x7d"]
        [(strL "input", .obj [(strL "a", .num ((1 : ℕ) : ℚ))])]) ∧
     countStarts (expToolEvents 0 (strL "i") (strL "n") [strL "\x7b\"a\":", strL "1\x7d"]
        [(strL "input", .obj [(strL "a", .num ((1 : ℕ) : ℚ))])]) = 1 ∧
     inputOf ((expToolEvents 0 (strL "i") (strL "n") [strL "\x7b\"a\":", strL "1\x7d"]
        [(strL "input", .obj [(strL "a", .num ((1 : ℕ) : ℚ))])]).getD 0 .null) =
       .obj [(strL "a", .num ((1 : ℕ) : ℚ))] ∧
     ∃ evs2, _parse_sse_events_detailed (.str (mkToolStream 0 (strL "i") (strL "n")
          [strL "\x7b\"a\":1\x7d"])) = .ok evs2 ∧
        evs2.getD 0 .null =
          (expToolEvents 0 (strL "i") (strL "n") [strL "\x7b\"a\":", strL "1\x7d"]
            [(strL "input", .obj [(strL "a", .num ((1 : ℕ) : ℚ))])]).getD 0 .null) :=
  ⟨by rfl, by rfl, by rfl,
    C3_stream_reassembly 0 (strL "i") (strL "n") [strL "\x7b\"a\":", strL "1\x7d"]
      [strL "\x7b\"a\":1\x7d"] (.obj [(strL "a", .num ((1 : ℕ) : ℚ))])
      (by rfl) (by rfl) (by rfl)⟩

set_option maxRecDepth 10000 in
/-- C4 counterexample: with no delta fragments the accumulated text is empty
and fails to decode, yet the start event receives neither `input_raw` nor
`input_parse_error` (the code guards on `if accumulated_json:`). -/
theorem C4_counterexample :
    jsonParse (([] : List Str).flatten) = .error (strL "Expecting value") ∧
    _parse_sse_events_detailed (.str (mkToolStream 0 (strL "i") (strL "n") [])) =
      .ok (expToolEvents 0 (strL "i") (strL "n") [] []) := ⟨rfl, by rfl⟩

/-- C4 (amended: the accumulated delta text must be non-empty): when the
accumulated tool-input text fails to decode as JSON at the matching
`content_block_stop`, the originating `content_block_start` event's content
block receives `input_raw` (the full accumulated string) and
`input_parse_error` (the decode error) instead of `input`, and both the
accumulator and the start-event reference for that block index are
discarded. -/
theorem C4_decode_failure (idx : ℕ) (id name : Str) (frags : List Str) (e : Str)
    (hne : frags.flatten.isEmpty = false)
    (hv : jsonParse frags.flatten = .error e) :
    ∃ fin : SSEState,
      sseRun initSSE (splitOnChar '\n' (mkToolStream idx id name frags)) = .ok fin ∧
      fin.events = expToolEvents idx id name frags
        [(strL "input_raw", .str frags.flatten), (strL "input_parse_error", .str e)] ∧
      fin.blocks = [] ∧ fin.refs = [] ∧
      _parse_sse_events_detailed (.str (mkToolStream idx id name frags)) = .ok fin.events :=
  ⟨_, sseRun_toolStream_err idx id name frags e hne hv, rfl, rfl, rfl,
    parse_sse_toolStream_err idx id name frags e hne hv⟩

theorem C4_decode_failure_witness :
    ([strL "oops"] : List Str).flatten.isEmpty = false ∧
    jsonParse ([strL "oops"] : List Str).flatten = .error (strL "Expecting value") ∧
    ∃ fin : SSEState,
      sseRun initSSE (splitOnChar '\n' (mkToolStream 0 (strL "i") (strL "n")
        [strL "oops"])) = .ok fin ∧
      fin.events = expToolEvents 0 (strL "i") (strL "n") [strL "oops"]
        [(strL "input_raw", .str ([strL "oops"] : List Str).flatten),
         (strL "input_parse_error", .str (strL "Expecting value"))] ∧
      fin.blocks = [] ∧ fin.refs = [] ∧
      _parse_sse_events_detailed (.str (mkToolStream 0 (strL "i") (strL "n")
        [strL "oops"])) = .ok fin.events :=
  ⟨by rfl, by rfl,
    C4_decode_failure 0 (strL "i") (strL "n") [strL "oops"] (strL "Expecting value")
      (by rfl) (by rfl)⟩
